import Mathlib

/- Verification development for the clicking-game repository (src/main.js).

   The three components of the program are shallowly embedded here:

   * `MouseTracker` (velocity estimation from pointer events): JavaScript
     numbers that may be NaN are modelled by `JNum`, a rational number or a
     non-finite marker.  In the modelled functions every non-finite value
     (NaN or an infinity produced by division by zero) flows only into
     `Number.isFinite` checks, `===` comparisons and `<`/`>` comparisons,
     for which NaN and the infinities produced there behave identically
     (comparisons with NaN are false, `NaN === NaN` is false), so a single
     non-finite marker `JNum.nan` is faithful.
   * `BoundedMotion` (the single-axis bounded motion engine): modelled over
     the real numbers.  The constructor of the source initialises
     `_initPos`/`pos` to NaN and `_trajStartGlobalTime` to `undefined`;
     these sentinels have no real counterpart, so the numeric core
     `BoundedMotion` carries a placeholder 0 in those fields and the
     wrapper `MotionCtor` records, per field, whether the sentinel is
     still present — its `update` reproduces the source's behaviour on
     NaN/undefined state (throw before any `setVel`; while the position
     is NaN both boundary comparisons are false, so the loop exits after
     one iteration with `pos` still NaN).
     `Math.sqrt` becomes `Real.sqrt`.  The `while` loop of `update` is
     embedded with explicit fuel (`updateLoop`); `none` means the fuel ran
     out before the loop exited.  The loop also counts how many rebound
     (new-trajectory) iterations it performed, so that statements about
     the number of rebounds inside one `update` call can be made.
   * `MovingButton` (the dodge controller): `Math.random` is modelled by an
     explicit angle parameter, the DOM/class-list/timer side effects are
     outside the model, and the mouse tracker readings consumed by
     `_detectHit` are passed as arguments (position as `Option ℝ`, with
     `none` for the unknown/NaN position). -/

/- ---------------------------------------------------------------- -/
/- JavaScript numbers for the MouseTracker: a finite rational or a
   non-finite marker.                                                 -/

inductive JNum where
  | nan : JNum
  | num : ℚ → JNum
deriving DecidableEq, Repr

namespace JNum

/-- `Number.isFinite`. -/
def isFinite : JNum → Bool
  | nan => false
  | num _ => true

/-- JavaScript subtraction: any non-finite operand gives a non-finite result. -/
def sub : JNum → JNum → JNum
  | num a, num b => num (a - b)
  | _, _ => nan

/-- JavaScript addition on the values reached by the tracker. -/
def add : JNum → JNum → JNum
  | num a, num b => num (a + b)
  | _, _ => nan

/-- JavaScript division.  Division of a finite number by zero yields an
    infinity and `0/0` yields NaN; both are non-finite, which is all the
    modelled code observes of them. -/
def div : JNum → JNum → JNum
  | num a, num b => if b = 0 then nan else num (a / b)
  | _, _ => nan

/-- JavaScript multiplication on the values reached by the tracker. -/
def mul : JNum → JNum → JNum
  | num a, num b => num (a * b)
  | _, _ => nan

/-- JavaScript `<`: false when an operand is NaN. -/
def ltb : JNum → JNum → Bool
  | num a, num b => decide (a < b)
  | _, _ => false

/-- JavaScript `>`: false when an operand is NaN. -/
def gtb : JNum → JNum → Bool
  | num a, num b => decide (b < a)
  | _, _ => false

/-- JavaScript `===` on numbers: false when an operand is NaN. -/
def eqb : JNum → JNum → Bool
  | num a, num b => decide (a = b)
  | _, _ => false

end JNum

/- ---------------------------------------------------------------- -/
/- MouseTracker                                                       -/

/-- The mutable state of a `MouseTracker` (src/main.js, constructor).
    `offsetX`/`offsetY` are fixed at construction; the scroll coordinates
    are omitted because only the handlers relevant to the claims are
    modelled. -/
structure TrackerState where
  velX : JNum
  velY : JNum
  posX : JNum
  posY : JNum
  clientX : JNum
  clientY : JNum
  lastTimeStamp : JNum
  nowAtSample : JNum
  offsetX : ℚ
  offsetY : ℚ
  sampleExpireTime : ℚ
deriving DecidableEq, Repr

namespace TrackerState

/-- `MouseTracker._timeAvVel` (src/main.js lines 190-211). -/
def timeAvVel (sampleExpireTime : ℚ) (curr diffPos diffTimeMillisec : JNum) : JNum :=
  let vel := (diffPos.div diffTimeMillisec).mul (.num 1000)
  if vel.isFinite = false then .num 0
  else if diffTimeMillisec.gtb (.num sampleExpireTime) then vel
  else if curr.isFinite = false then vel
  else if curr.eqb (.num 0) then vel
  else if vel.ltb (.num 0) && curr.gtb (.num 0) then vel
  else if vel.gtb (.num 0) && curr.ltb (.num 0) then vel
  else (curr.add vel).div (.num 2)

/-- `MouseTracker._updateMouseMotion` (src/main.js lines 213-228).  `now` is
    `Date.now()` and `rectX`/`rectY` the tracking area's bounding rectangle,
    supplied by the environment.  The Boolean records that the position
    handler was invoked. -/
def updateMouseMotion (s : TrackerState) (diffX diffY timeStamp : JNum)
    (now rectX rectY : ℚ) : TrackerState × Bool :=
  let diffTime := timeStamp.sub s.lastTimeStamp
  ({ s with
      nowAtSample := .num now
      velX := timeAvVel s.sampleExpireTime s.velX diffX diffTime
      velY := timeAvVel s.sampleExpireTime s.velY diffY diffTime
      lastTimeStamp := timeStamp
      posX := (s.clientX.sub (.num rectX)).sub (.num s.offsetX)
      posY := (s.clientY.sub (.num rectY)).sub (.num s.offsetY) }, true)

/-- `MouseTracker._updateToClientPos` (src/main.js lines 230-245).  The
    event always carries finite client coordinates and a finite timestamp.
    The Boolean records whether the position handler was invoked. -/
def updateToClientPos (s : TrackerState) (evClientX evClientY evTimeStamp : ℚ)
    (now rectX rectY : ℚ) : TrackerState × Bool :=
  if s.clientX.eqb (.num evClientX) && s.clientY.eqb (.num evClientY) then
    (s, false)
  else
    let diffX := (JNum.num evClientX).sub s.clientX
    let diffY := (JNum.num evClientY).sub s.clientY
    let s1 := { s with clientX := JNum.num evClientX, clientY := JNum.num evClientY }
    updateMouseMotion s1 diffX diffY (.num evTimeStamp) now rectX rectY

end TrackerState

/- The spec's wording of the continuous-event velocity update rule (spec.md
   section 4.1), used to compare claim C5 against `timeAvVel`.  `qsign` is
   the mathematical sign function the claim's `sign(r) != sign(c)` refers
   to. -/

def qsign (q : ℚ) : ℚ :=
  if q < 0 then -1 else if 0 < q then 1 else 0

/-- The update rule exactly as claim C5 states it: raw velocity
    `r = d/dt*1000`; `0` if `r` is non-finite; else `r` if `dt` exceeds the
    sample-expiry window; else `r` if the current estimate `c` is
    non-finite, or `c = 0`, or `sign(r) != sign(c)`; else `(c + r)/2`. -/
def specTimeAvVel (sampleExpireTime : ℚ) (curr diffPos diffTimeMillisec : JNum) : JNum :=
  let vel := (diffPos.div diffTimeMillisec).mul (.num 1000)
  match vel with
  | .nan => .num 0
  | .num r =>
    if diffTimeMillisec.gtb (.num sampleExpireTime) then .num r
    else
      match curr with
      | .nan => .num r
      | .num c =>
        if c = 0 then .num r
        else if qsign r ≠ qsign c then .num r
        else .num ((c + r) / 2)

/-- Claim C5 amended: the snap-to-`r` condition on signs holds only when the
    raw velocity `r` is itself nonzero and of sign opposite to `c`; a zero
    raw velocity with a nonzero current estimate is averaged instead. -/
def amendedTimeAvVel (sampleExpireTime : ℚ) (curr diffPos diffTimeMillisec : JNum) : JNum :=
  let vel := (diffPos.div diffTimeMillisec).mul (.num 1000)
  match vel with
  | .nan => .num 0
  | .num r =>
    if diffTimeMillisec.gtb (.num sampleExpireTime) then .num r
    else
      match curr with
      | .nan => .num r
      | .num c =>
        if c = 0 then .num r
        else if r ≠ 0 ∧ qsign r ≠ qsign c then .num r
        else .num ((c + r) / 2)

/- ---------------------------------------------------------------- -/
/- BoundedMotion: the single-axis bounded motion engine.  The engine's
   floating-point arithmetic is idealised over ℝ (so `Math.sqrt` is
   `Real.sqrt`), which makes these definitions noncomputable; concrete
   runs are evaluated in the theorems below by `simp`/`norm_num`.        -/

noncomputable section

/-- The state of a `BoundedMotion` instance (src/main.js lines 366-405):
    the three construction parameters followed by the mutable trajectory
    fields. -/
structure BoundedMotion where
  upperPos : ℝ
  halfReboundVel : ℝ
  accel : ℝ
  trajStartGlobalTime : ℝ
  initPos : ℝ
  pos : ℝ
  initVel : ℝ
  vel : ℝ

namespace BoundedMotion

/-- The constructor (src/main.js lines 390-405): `checkRange` rejects
    parameters outside `upperPos ∈ (0, ∞]`, `halfReboundVel ∈ (0, ∞)` and
    `accel ∈ (0, ∞)` with a `RangeError` (`none` here); over ℝ the
    conditions reduce to strict positivity.  The source stores NaN in
    `_initPos`/`pos` and leaves `_trajStartGlobalTime` undefined; this
    numeric core carries a placeholder 0 there, and the `MotionCtor`
    wrapper below records whether each sentinel is still present. -/
def make (upperPos halfReboundVel accel : ℝ) : Option BoundedMotion :=
  if 0 < upperPos ∧ 0 < halfReboundVel ∧ 0 < accel then
    some { upperPos := upperPos, halfReboundVel := halfReboundVel, accel := accel
           trajStartGlobalTime := 0, initPos := 0, pos := 0, initVel := 0, vel := 0 }
  else none

/-- `BoundedMotion.setPos` (src/main.js lines 415-419); `none` is the
    `RangeError` thrown by `checkRange` when `initPos ∉ [0, upperPos]`. -/
def setPos (m : BoundedMotion) (initPos : ℝ) : Option BoundedMotion :=
  if 0 ≤ initPos ∧ initPos ≤ m.upperPos then
    some { m with initPos := initPos, pos := initPos }
  else none

/-- `BoundedMotion.setVel` (src/main.js lines 431-437); its `checkRange`
    calls only demand finiteness, which every real number satisfies. -/
def setVel (m : BoundedMotion) (globalTime initVel : ℝ) : BoundedMotion :=
  { m with trajStartGlobalTime := globalTime, initVel := initVel, vel := initVel }

/-- `BoundedMotion._velAtTrajTime` (src/main.js lines 450-459). -/
def velAtTrajTime (m : BoundedMotion) (trajTime : ℝ) : ℝ :=
  if 0 ≤ m.initVel then m.initVel - m.accel * trajTime
  else m.initVel + m.accel * trajTime

/-- `BoundedMotion._trajTimeAtStop` (src/main.js lines 469-471). -/
def trajTimeAtStop (m : BoundedMotion) : ℝ :=
  |m.initVel| / m.accel

/-- `BoundedMotion.reboundVel` (src/main.js lines 482-504). -/
def reboundVel (m : BoundedMotion) (vel : ℝ) : ℝ :=
  -vel / (|vel| / m.halfReboundVel + 1)

/-- `BoundedMotion._posAtTrajTime` (src/main.js lines 518-520). -/
def posAtTrajTime (m : BoundedMotion) (trajTime vel : ℝ) : ℝ :=
  m.initPos + ((m.initVel + vel) / 2) * trajTime

/-- `BoundedMotion._trajTimeAtDisp` (src/main.js lines 535-556).
    `Math.sqrt` of a negative argument is NaN in the source, which then
    fails `update`'s range check on the hit time exactly as `Real.sqrt`'s
    junk value 0 may; the lemmas below show the argument is nonnegative in
    every situation the loop reaches. -/
def trajTimeAtDisp (m : BoundedMotion) (disp : ℝ) : ℝ :=
  (|m.initVel| - Real.sqrt (m.initVel * m.initVel - 2 * m.accel * disp)) / m.accel

/-- The boundary check and rebound construction of one loop iteration of
    `BoundedMotion.update` (src/main.js lines 612-659), applied to the
    clamped trajectory time `trajTime1` and velocity `vel1`.
    `Sum.inr (pos, vel)` is the loop exiting with its result;
    `Sum.inl (m1, trajTime1')` is the rebound case: the new trajectory
    state and the left-over trajectory time. -/
def stepOutcome (m : BoundedMotion) (trajTime1 vel1 : ℝ) : (BoundedMotion × ℝ) ⊕ (ℝ × ℝ) :=
  let pos := m.posAtTrajTime trajTime1 vel1
  if pos < 0 ∨ m.upperPos < pos then
    let disp := if pos < 0 then m.initPos else m.upperPos - m.initPos
    let hitTime0 := m.trajTimeAtDisp disp
    let hitTime := if 0 ≤ hitTime0 ∧ hitTime0 ≤ trajTime1 then hitTime0 else trajTime1
    let hitVel := m.velAtTrajTime hitTime
    Sum.inl ({ m with
        trajStartGlobalTime := m.trajStartGlobalTime + hitTime
        initVel := m.reboundVel hitVel
        initPos := if pos < 0 then 0 else m.upperPos },
      trajTime1 - hitTime)
  else
    Sum.inr (pos, vel1)

/-- One iteration of the `while (newTraj)` loop of `BoundedMotion.update`
    (src/main.js lines 583-660): the velocity zero-crossing clamp of the
    trajectory time, followed by the boundary check and rebound of
    `stepOutcome`. -/
def updateStep (m : BoundedMotion) (trajTime : ℝ) : (BoundedMotion × ℝ) ⊕ (ℝ × ℝ) :=
  let vel0 := m.velAtTrajTime trajTime
  let stopped := (0 ≤ m.initVel ∧ vel0 < 0) ∨ (m.initVel < 0 ∧ 0 < vel0)
  let trajTime1 := if stopped then m.trajTimeAtStop else trajTime
  let vel1 := if stopped then 0 else vel0
  m.stepOutcome trajTime1 vel1

/-- The `while (newTraj)` loop of `BoundedMotion.update`, with explicit
    fuel (`none` = fuel exhausted before the loop exited; the loop of the
    source has no such bound, and the termination lemmas below show the
    fuel can always be chosen large enough).  The final component counts
    the rebound iterations taken. -/
def updateLoop : ℕ → BoundedMotion → ℝ → ℕ → Option (BoundedMotion × ℕ)
  | 0, _, _, _ => none
  | fuel + 1, m, trajTime, bounces =>
    match m.updateStep trajTime with
    | .inr (pos, vel) => some ({ m with pos := pos, vel := vel }, bounces)
    | .inl (m1, trajTime1) => updateLoop fuel m1 trajTime1 (bounces + 1)

/-- `BoundedMotion.update` (src/main.js lines 572-663).  `.error` is the
    `RangeError` thrown when `!(trajTime >= 0.0)`. -/
def update (fuel : ℕ) (m : BoundedMotion) (globalTime : ℝ) :
    Except String (Option (BoundedMotion × ℕ)) :=
  let trajTime := globalTime - m.trajStartGlobalTime
  if ¬ 0 ≤ trajTime then .error "RangeError"
  else .ok (updateLoop fuel m trajTime 0)

end BoundedMotion

/-- One externally driven operation on a `BoundedMotion`, for stating the
    position invariant over arbitrary call sequences. -/
inductive MotionOp where
  | position (p : ℝ)
  | velocity (t v : ℝ)
  | step (fuel : ℕ) (t : ℝ)

/-- The velocity a loop iteration computes before the boundary stage:
    `v(t)`, clamped to 0 when it would have crossed zero (src/main.js
    lines 588-610).  Used by `MotionCtor.update` for the NaN-position
    path, where the boundary branch of the loop cannot fire. -/
def BoundedMotion.clampedVel (m : BoundedMotion) (trajTime : ℝ) : ℝ :=
  let vel0 := m.velAtTrajTime trajTime
  if (0 ≤ m.initVel ∧ vel0 < 0) ∨ (m.initVel < 0 ∧ 0 < vel0) then 0 else vel0

/-- An engine as the source constructs it: the numeric core plus flags
    recording which fields still hold the constructor's non-numeric
    sentinels.  `posKnown = false` while `_initPos`/`pos` hold the
    constructor's NaN (src/main.js lines 400-401; the core then carries a
    placeholder 0 there); `timeKnown = false` while `_trajStartGlobalTime`
    is `undefined` (line 399). -/
structure MotionCtor where
  core : BoundedMotion
  posKnown : Bool
  timeKnown : Bool

namespace MotionCtor

/-- The constructor (src/main.js lines 390-405): the parameter checks of
    `BoundedMotion.make`, with both sentinels in place. -/
def make (upperPos halfReboundVel accel : ℝ) : Option MotionCtor :=
  (BoundedMotion.make upperPos halfReboundVel accel).map
    (fun m => { core := m, posKnown := false, timeKnown := false })

/-- `setPos` (src/main.js lines 415-419): overwrites the NaN position
    sentinel. -/
def setPos (s : MotionCtor) (initPos : ℝ) : Option MotionCtor :=
  (s.core.setPos initPos).map (fun m => { s with core := m, posKnown := true })

/-- `setVel` (src/main.js lines 431-437): overwrites the undefined start
    time. -/
def setVel (s : MotionCtor) (globalTime initVel : ℝ) : MotionCtor :=
  { s with core := s.core.setVel globalTime initVel, timeKnown := true }

/-- `update` (src/main.js lines 572-663) on a possibly still-sentinelled
    engine.  Before any `setVel`, `trajTime = globalTime - undefined` is
    NaN, so `!(trajTime >= 0.0)` holds and the call throws.  While
    `_initPos`/`pos` are NaN, `pos` computes to NaN in every iteration,
    both boundary comparisons are false, and the loop exits after one
    iteration with the clamped velocity and `pos` still NaN (the
    `posKnown = false` flag and the untouched placeholder).  Once both
    sentinels are gone this is exactly `BoundedMotion.update`. -/
def update (fuel : ℕ) (s : MotionCtor) (globalTime : ℝ) :
    Except String (Option MotionCtor) :=
  if s.timeKnown = false then .error "RangeError"
  else if s.posKnown = false then
    let trajTime := globalTime - s.core.trajStartGlobalTime
    if ¬ 0 ≤ trajTime then .error "RangeError"
    else .ok (some { s with core := { s.core with vel := s.core.clampedVel trajTime } })
  else
    (s.core.update fuel globalTime).map
      (Option.map (fun r => { s with core := r.1 }))

end MotionCtor

/-- Run one operation on a constructed engine; `none` when the source
    would have thrown (or, for `step`, when the fuel ran out). -/
def applyCtorOp (s : MotionCtor) : MotionOp → Option MotionCtor
  | .position p => s.setPos p
  | .velocity t v => some (s.setVel t v)
  | .step fuel t =>
    match s.update fuel t with
    | .ok (some s1) => some s1
    | _ => none

/-- Run a sequence of operations on a constructed engine. -/
def runCtorOps (s : MotionCtor) : List MotionOp → Option MotionCtor
  | [] => some s
  | op :: ops => (applyCtorOp s op).bind (fun s1 => runCtorOps s1 ops)

/-- Whether a `setPos` call occurs before the first `update` of the
    sequence (so the constructor's NaN position sentinel is gone by the
    time the first update runs). -/
def setPosFirst : List MotionOp → Bool
  | [] => true
  | .position _ :: _ => true
  | .velocity _ _ :: ops => setPosFirst ops
  | .step _ _ :: _ => false


/- ---------------------------------------------------------------- -/
/- MovingButton: the dodge controller.                                -/

/-- The motion-relevant state of a `MovingButton` (src/main.js lines
    685-727).  The DOM element, class lists and timer handles are outside
    the model; `hitWidth`/`hitHeight`/`thickner` are fixed at
    construction. -/
structure MovingButton where
  motionX : BoundedMotion
  motionY : BoundedMotion
  leftPos : ℝ
  topPos : ℝ
  hitWidth : ℝ
  hitHeight : ℝ
  thickner : ℝ
  hit : Bool
  hitImmune : Bool

namespace MovingButton

/-- `MovingButton._getUnitVecAwayFrom` (src/main.js lines 738-748).
    `Math.random()*2*Math.PI` is modelled by the explicit angle `ang`. -/
def getUnitVecAwayFrom (posX posY ang : ℝ) : ℝ × ℝ :=
  let mag := Real.sqrt (posX * posX + posY * posY)
  if ¬ 0 < mag then (-(Real.cos ang), -(Real.sin ang))
  else (-(posX / mag), -(posY / mag))

/-- `MovingButton._entrySides` (src/main.js lines 786-846): which axes are
    rebound-eligible (`horizontal`, `vertical`). -/
def entrySides (b : MovingButton) (x y vX vY : ℝ) : Bool × Bool :=
  if vX = 0 ∨ vY = 0 then (decide (vY = 0), decide (vX = 0))
  else
    let lhs := |vX| * (if 0 < vY then y else b.hitHeight - y)
    let rhs := |vY| * (if 0 < vX then x else b.hitWidth - x)
    (decide (rhs ≤ lhs), decide (lhs ≤ rhs))

/-- `MovingButton._minVel` (src/main.js lines 848-860). -/
def minVel (vel : ℝ) : ℝ :=
  if |vel| < 20 then
    if vel = 0 then 0 else if 0 < vel then 20 else -20
  else vel

/-- `MovingButton._giveVel` (src/main.js lines 975-993), restricted to the
    motion state (the class-list changes and interval bookkeeping have no
    motion effect).  `none` is the `RangeError` a `setPos` call would
    throw. -/
def giveVel (b : MovingButton) (velX velY now : ℝ) : Option MovingButton :=
  let globalTime := now / 1000
  (b.motionX.setPos b.leftPos).bind fun mx =>
    (b.motionY.setPos b.topPos).bind fun my =>
      some { b with
        motionX := mx.setVel globalTime velX
        motionY := my.setVel globalTime velY }

/-- `MovingButton._detectHit` (src/main.js lines 862-936).  The tracker
    readings are passed in: `posX`/`posY` are `none` when the tracker
    position is unknown (NaN), in which case every comparison of the source
    is false; `mouseVelX`/`mouseVelY` are what `velX(now)`/`velY(now)`
    returned.  `ang` models the `Math.random()` draw of
    `_getUnitVecAwayFrom` in the zero-magnitude branch. -/
def detectHit (b : MovingButton) (posX posY : Option ℝ)
    (mouseVelX mouseVelY now ang : ℝ) : Option MovingButton :=
  match posX, posY with
  | some px, some py =>
    let mouseY := py - b.topPos + b.thickner
    let mouseX := px - b.leftPos + b.thickner
    let hit := b.hitImmune = false ∧ 0 ≤ mouseY ∧ 0 ≤ mouseX ∧
      mouseY ≤ b.hitHeight ∧ mouseX ≤ b.hitWidth
    if b.hit = false ∧ hit then
      let relVelX := mouseVelX - b.motionX.vel
      let relVelY := mouseVelY - b.motionY.vel
      let entry := b.entrySides mouseX mouseY relVelX relVelY
      let velX0 := if entry.1 then b.motionX.reboundVel (-relVelX) + mouseVelX
                   else b.motionX.vel + mouseVelX / 2
      let velY0 := if entry.2 then b.motionY.reboundVel (-relVelY) + mouseVelY
                   else b.motionY.vel + mouseVelY / 2
      let velX1 := minVel velX0
      let velY1 := minVel velY0
      let mag := Real.sqrt (velX1 * velX1 + velY1 * velY1)
      let v2 : ℝ × ℝ :=
        if ¬ 30 ≤ mag then
          if ¬ 0 < mag then
            let halfWidth := b.hitWidth / 2
            let halfHeight := b.hitHeight / 2
            let pX := mouseX - halfWidth
            let pY := mouseY - halfHeight
            let vec := getUnitVecAwayFrom pX pY ang
            let depthX := halfWidth - |pX|
            let depthY := halfHeight - |pY|
            let depth := Real.sqrt (depthX * depthX + depthY * depthY)
            let vm := max 30 (depth * 10)
            (vm * vec.1, vm * vec.2)
          else (velX1 * (30 / mag), velY1 * (30 / mag))
        else (velX1, velY1)
      (b.giveVel v2.1 v2.2 now).map fun b1 => { b1 with hit := true }
    else
      some { b with hit := decide hit }
  | _, _ =>
    some { b with hit := false }

/-- The activation point of a click relative to the centre of the
    thickened hit area (src/main.js lines 755-768), with the `(0,0)`
    client-coordinate non-pointer special case. -/
def activationPoint (b : MovingButton) (clientX clientY rectX rectY : ℝ) : ℝ × ℝ :=
  if clientX = 0 ∧ clientY = 0 then (0, 0)
  else ((clientX - rectX + b.thickner) - b.hitWidth / 2,
        (clientY - rectY + b.thickner) - b.hitHeight / 2)

/-- `MovingButton._clicked` (src/main.js lines 750-784), restricted to the
    motion state: the alert-timer and class-list effects are outside the
    model.  `rectX`/`rectY` are the button's bounding rectangle and `ang`
    models the `Math.random()` draw. -/
def clicked (b : MovingButton) (clientX clientY rectX rectY now ang : ℝ) :
    Option MovingButton :=
  let p := b.activationPoint clientX clientY rectX rectY
  let vec := getUnitVecAwayFrom p.1 p.2 ang
  giveVel { b with hitImmune := true } (4000 * vec.1) (4000 * vec.2) now

end MovingButton

end

/- ---------------------------------------------------------------- -/
/- Claims C5 and C8: the MouseTracker velocity update rule.           -/

/-- With a nonzero current estimate, the sign conditions of the source's
    `_timeAvVel` snap branches coincide with "`r` nonzero and of sign
    different from `c`". -/
theorem qsign_snap_iff (r c : ℚ) (hc : c ≠ 0) :
    (r ≠ 0 ∧ qsign r ≠ qsign c) ↔ ((r < 0 ∧ 0 < c) ∨ (0 < r ∧ c < 0)) := by
  unfold qsign
  rcases lt_trichotomy r 0 with h | h | h <;> rcases lt_trichotomy c 0 with h2 | h2 | h2
  · rw [if_pos h, if_pos h2]
    simp only [ne_eq, not_true_eq_false, and_false, false_iff]
    rintro (⟨h3, h4⟩ | ⟨h3, h4⟩) <;> linarith
  · exact absurd h2 hc
  · rw [if_pos h, if_neg (not_lt.mpr h2.le), if_pos h2]
    constructor
    · intro _
      exact Or.inl ⟨h, h2⟩
    · intro _
      exact ⟨ne_of_lt h, by norm_num⟩
  · subst h
    simp
  · exact absurd h2 hc
  · subst h
    simp
  · rw [if_neg (not_lt.mpr h.le), if_pos h, if_pos h2]
    constructor
    · intro _
      exact Or.inr ⟨h, h2⟩
    · intro _
      refine ⟨ne_of_gt h, by norm_num⟩
  · exact absurd h2 hc
  · rw [if_neg (not_lt.mpr h.le), if_pos h, if_neg (not_lt.mpr h2.le), if_pos h2]
    simp only [ne_eq, not_true_eq_false, and_false, false_iff]
    rintro (⟨h3, h4⟩ | ⟨h3, h4⟩) <;> linarith

/-- Claim C5 (amended): for each axis, the continuous-event velocity update
    `_timeAvVel` produces 0 when the raw velocity `r = d/dt*1000` is
    non-finite; else `r` when `dt` exceeds the sample-expiry window; else
    `r` when the current estimate `c` is non-finite, `c = 0`, or `r` is
    nonzero with `sign(r) ≠ sign(c)`; else the average `(c + r)/2`. -/
theorem timeAvVel_eq_amended (expire : ℚ) (curr diffPos diffTimeMillisec : JNum) :
    TrackerState.timeAvVel expire curr diffPos diffTimeMillisec =
      amendedTimeAvVel expire curr diffPos diffTimeMillisec := by
  unfold TrackerState.timeAvVel amendedTimeAvVel
  rcases hv : (diffPos.div diffTimeMillisec).mul (.num 1000) with _ | r <;> dsimp only
  · simp [JNum.isFinite]
  · rw [if_neg (by simp [JNum.isFinite])]
    by_cases hgt : diffTimeMillisec.gtb (.num expire) = true
    · rw [if_pos hgt]
      simp [hgt]
    · rw [if_neg hgt]
      simp only [Bool.not_eq_true] at hgt
      simp only [hgt, Bool.false_eq_true, if_false]
      rcases curr with _ | c
      · simp [JNum.isFinite]
      · rw [if_neg (by simp [JNum.isFinite])]
        simp only [JNum.eqb, JNum.ltb, JNum.gtb, JNum.add, JNum.div,
          decide_eq_true_eq, Bool.and_eq_true]
        rcases eq_or_ne c 0 with hc | hc
        · simp [hc]
        · rw [if_neg (by simpa using hc), if_neg hc,
            if_neg (by norm_num : ¬ (2 : ℚ) = 0)]
          by_cases hsnap : (r < 0 ∧ 0 < c) ∨ (0 < r ∧ c < 0)
          · rw [if_pos ((qsign_snap_iff r c hc).mpr hsnap)]
            rcases hsnap with ⟨h1, h2⟩ | ⟨h1, h2⟩
            · rw [if_pos ⟨h1, h2⟩]
            · rw [if_neg (fun hx => absurd h1 (not_lt.mpr hx.1.le)),
                if_pos ⟨h1, h2⟩]
          · rw [if_neg (fun hx => hsnap ((qsign_snap_iff r c hc).mp hx)),
              if_neg (fun hx => hsnap (Or.inl hx)),
              if_neg (fun hx => hsnap (Or.inr hx))]

/-- Claim C5 counterexample: with current estimate `c = 2`, displacement
    `d = 0` and elapsed time `dt = 100 ms`, the raw velocity is `r = 0`,
    so `sign(r) = 0 ≠ 1 = sign(c)` and the claim's rule answers `r = 0`,
    but the source's `_timeAvVel` takes none of its snap branches and
    averages to `(2 + 0)/2 = 1`. -/
theorem timeAvVel_claim_counterexample :
    TrackerState.timeAvVel 300 (.num 2) (.num 0) (.num 100) = .num 1 ∧
      specTimeAvVel 300 (.num 2) (.num 0) (.num 100) = .num 0 ∧
      TrackerState.timeAvVel 300 (.num 2) (.num 0) (.num 100) ≠
        specTimeAvVel 300 (.num 2) (.num 0) (.num 100) := by
  refine ⟨?_, ?_, ?_⟩ <;>
    norm_num [TrackerState.timeAvVel, specTimeAvVel, qsign, JNum.div, JNum.mul,
      JNum.isFinite, JNum.eqb, JNum.ltb, JNum.gtb, JNum.add]

/-- Claim C8: a continuous pointer event whose client coordinates both
    equal the stored ones (under JavaScript `===`, hence both finite) is a
    no-op: the tracker state is returned unchanged and the position-changed
    handler is not invoked. -/
theorem updateToClientPos_duplicate_noop (s : TrackerState)
    (evClientX evClientY evTimeStamp now rectX rectY : ℚ)
    (hx : s.clientX.eqb (.num evClientX) = true)
    (hy : s.clientY.eqb (.num evClientY) = true) :
    s.updateToClientPos evClientX evClientY evTimeStamp now rectX rectY = (s, false) := by
  unfold TrackerState.updateToClientPos
  rw [if_pos (by rw [hx, hy]; rfl)]

/-- A concrete tracker state for the C8 witness. -/
def trackerSample : TrackerState :=
  { velX := .num 3, velY := .num (-4), posX := .num 7, posY := .num 8
    clientX := .num 5, clientY := .num 6, lastTimeStamp := .num 40
    nowAtSample := .num 50, offsetX := 1, offsetY := 2, sampleExpireTime := 300 }

/-- Witness for claim C8 at a concrete duplicate event. -/
theorem updateToClientPos_duplicate_noop_witness :
    trackerSample.updateToClientPos 5 6 90 100 0 0 = (trackerSample, false) :=
  updateToClientPos_duplicate_noop trackerSample 5 6 90 100 0 0
    (by simp [trackerSample, JNum.eqb]) (by simp [trackerSample, JNum.eqb])

/- ---------------------------------------------------------------- -/
/- Claims C2 and C10: algebra of the rebound velocity function.       -/

namespace BoundedMotion

theorem reboundVel_denom_pos (m : BoundedMotion) (v : ℝ)
    (hH : 0 < m.halfReboundVel) : 0 < |v| / m.halfReboundVel + 1 := by
  have h1 : 0 ≤ |v| / m.halfReboundVel := div_nonneg (abs_nonneg v) hH.le
  linarith

theorem abs_reboundVel (m : BoundedMotion) (v : ℝ) (hH : 0 < m.halfReboundVel) :
    |m.reboundVel v| = |v| / (|v| / m.halfReboundVel + 1) := by
  unfold reboundVel
  rw [abs_div, abs_neg, abs_of_pos (m.reboundVel_denom_pos v hH)]

/-- The rebound speed is always strictly below the half-rebound reference
    speed (the core of claim C10, reused by the termination argument). -/
theorem abs_reboundVel_lt_half (m : BoundedMotion) (v : ℝ)
    (hH : 0 < m.halfReboundVel) : |m.reboundVel v| < m.halfReboundVel := by
  rw [m.abs_reboundVel v hH, div_lt_iff₀ (m.reboundVel_denom_pos v hH)]
  have h1 : m.halfReboundVel * (|v| / m.halfReboundVel + 1) =
      |v| + m.halfReboundVel := by
    field_simp
  rw [h1]
  linarith

theorem reboundVel_neg_of_pos (m : BoundedMotion) {v : ℝ}
    (hH : 0 < m.halfReboundVel) (hv : 0 < v) : m.reboundVel v < 0 := by
  unfold reboundVel
  exact div_neg_of_neg_of_pos (by linarith) (m.reboundVel_denom_pos v hH)

theorem reboundVel_pos_of_neg (m : BoundedMotion) {v : ℝ}
    (hH : 0 < m.halfReboundVel) (hv : v < 0) : 0 < m.reboundVel v := by
  unfold reboundVel
  exact div_pos (by linarith) (m.reboundVel_denom_pos v hH)

theorem abs_reboundVel_lt (m : BoundedMotion) {v : ℝ}
    (hH : 0 < m.halfReboundVel) (hv : v ≠ 0) : |m.reboundVel v| < |v| := by
  rw [m.abs_reboundVel v hH]
  have hd : 1 < |v| / m.halfReboundVel + 1 := by
    have : 0 < |v| / m.halfReboundVel := div_pos (abs_pos.mpr hv) hH
    linarith
  exact div_lt_self (abs_pos.mpr hv) hd

theorem reboundVel_antisymm (m : BoundedMotion) (v : ℝ) :
    m.reboundVel (-v) = -(m.reboundVel v) := by
  unfold reboundVel
  rw [abs_neg]
  ring

theorem abs_reboundVel_strictMono (m : BoundedMotion) {v w : ℝ}
    (hH : 0 < m.halfReboundVel) (hvw : |v| < |w|) :
    |m.reboundVel v| < |m.reboundVel w| := by
  rw [m.abs_reboundVel v hH, m.abs_reboundVel w hH,
    div_lt_div_iff₀ (m.reboundVel_denom_pos v hH) (m.reboundVel_denom_pos w hH)]
  have h1 : |v| * (|w| / m.halfReboundVel) = |w| * (|v| / m.halfReboundVel) := by
    ring
  nlinarith [h1, hvw]

end BoundedMotion

/-- Claim C2: for a configured half-rebound reference speed `H > 0`, the
    rebound function satisfies: for `v ≠ 0`, `sign(reboundVel v) =
    -sign v` and `|reboundVel v| < |v|`; `reboundVel 0 = 0`; antisymmetry
    `reboundVel (-v) = -reboundVel v`; and `|reboundVel|` is (strictly)
    monotone increasing in `|v|`. -/
theorem reboundVel_spec_properties (m : BoundedMotion) (hH : 0 < m.halfReboundVel) :
    (∀ v : ℝ, v ≠ 0 →
      Real.sign (m.reboundVel v) = -Real.sign v ∧ |m.reboundVel v| < |v|) ∧
    m.reboundVel 0 = 0 ∧
    (∀ v : ℝ, m.reboundVel (-v) = -(m.reboundVel v)) ∧
    (∀ v w : ℝ, |v| < |w| → |m.reboundVel v| < |m.reboundVel w|) := by
  refine ⟨fun v hv => ⟨?_, m.abs_reboundVel_lt hH hv⟩, ?_, m.reboundVel_antisymm,
    fun v w hvw => m.abs_reboundVel_strictMono hH hvw⟩
  · rcases hv.lt_or_lt with h | h
    · rw [Real.sign_of_neg h, Real.sign_of_pos (m.reboundVel_pos_of_neg hH h)]
      norm_num
    · rw [Real.sign_of_pos h, Real.sign_of_neg (m.reboundVel_neg_of_pos hH h)]
  · unfold BoundedMotion.reboundVel
    norm_num

/-- A concrete engine state for witnesses: `upperPos = 4`,
    `halfReboundVel = 1`, `accel = 2`. -/
def motionSample : BoundedMotion :=
  { upperPos := 4, halfReboundVel := 1, accel := 2, trajStartGlobalTime := 0
    initPos := 0, pos := 0, initVel := 0, vel := 0 }

/-- Witness for claim C2 at the concrete engine `motionSample` and `v = 3`. -/
theorem reboundVel_spec_properties_witness :
    Real.sign (motionSample.reboundVel 3) = -Real.sign 3 ∧
      |motionSample.reboundVel 3| < |(3 : ℝ)| :=
  (reboundVel_spec_properties motionSample (by norm_num [motionSample])).1 3
    (by norm_num)

/-- Claim C10: for every incoming velocity `v` the rebound speed satisfies
    `|reboundVel v| = |v| / (|v|/H + 1) < H`: no wall impact produces an
    outgoing speed of `H` or more. -/
theorem reboundVel_lt_halfReboundVel (m : BoundedMotion) (hH : 0 < m.halfReboundVel)
    (v : ℝ) :
    |m.reboundVel v| = |v| / (|v| / m.halfReboundVel + 1) ∧
      |m.reboundVel v| < m.halfReboundVel :=
  ⟨m.abs_reboundVel v hH, m.abs_reboundVel_lt_half v hH⟩

/-- Witness for claim C10 at the concrete engine `motionSample` and `v = -5`. -/
theorem reboundVel_lt_halfReboundVel_witness :
    |motionSample.reboundVel (-5)| =
        |(-5 : ℝ)| / (|(-5 : ℝ)| / motionSample.halfReboundVel + 1) ∧
      |motionSample.reboundVel (-5)| < motionSample.halfReboundVel :=
  reboundVel_lt_halfReboundVel motionSample (by norm_num [motionSample]) (-5)

/- ---------------------------------------------------------------- -/
/- Claim C4: when update throws its RangeError.                       -/

/-- Claim C4 (amended): `update(t)` fails with a RangeError exactly when
    `t` precedes the start time of the current trajectory
    (`trajStartGlobalTime`) — which `setVel` sets to its time argument,
    and which intervening `update` calls advance only to the global time
    of the last internal rebound, not to their own time argument. -/
theorem update_error_iff (fuel : ℕ) (m : BoundedMotion) (globalTime : ℝ) :
    ((∃ e, m.update fuel globalTime = .error e) ↔
      globalTime < m.trajStartGlobalTime) ∧
    (∀ t v : ℝ, (m.setVel t v).trajStartGlobalTime = t) := by
  refine ⟨?_, fun t v => rfl⟩
  unfold BoundedMotion.update
  by_cases h : 0 ≤ globalTime - m.trajStartGlobalTime
  · rw [if_neg (by simpa using h)]
    constructor
    · rintro ⟨e, he⟩
      exact absurd he (by simp)
    · intro hlt
      linarith
  · rw [if_pos (by simpa using h)]
    exact ⟨fun _ => by linarith [not_le.mp h], fun _ => ⟨"RangeError", rfl⟩⟩

/-- The engine state reached from `motionSample` by `setPos 0; setVel 0 5`
    after `update 2`: the particle hit the upper boundary at global time 1
    with velocity 3, rebounded to `-3/4`, and came to rest at `247/64`. -/
noncomputable def motionAfterBounce : BoundedMotion :=
  { upperPos := 4, halfReboundVel := 1, accel := 2, trajStartGlobalTime := 1
    initPos := 4, pos := 247 / 64, initVel := -(3 / 4), vel := 0 }

theorem sqrt_nine : Real.sqrt 9 = 3 := by
  rw [show (9 : ℝ) = 3 ^ 2 by norm_num, Real.sqrt_sq (by norm_num)]

/-- Claim C4 counterexample: after `setPos 0; setVel 0 5`, the call
    `update 2` rebounds internally at global time 1, so its successor
    `update 1.2` — although `1.2` precedes the most recent update time 2 —
    does not throw: it succeeds.  (The claim says every time preceding the
    most recent prior update call fails with a RangeError.) -/
theorem update_not_monotone_counterexample :
    motionSample.setPos 0 = some motionSample ∧
      (motionSample.setVel 0 5).update 3 2 = .ok (some (motionAfterBounce, 1)) ∧
      motionAfterBounce.trajStartGlobalTime = 1 ∧
      (6 / 5 : ℝ) < 2 ∧
      motionAfterBounce.update 1 (6 / 5) =
        .ok (some ({ motionAfterBounce with pos := 389 / 100, vel := -(7 / 20) }, 0)) := by
  refine ⟨?_, ?_, rfl, by norm_num, ?_⟩
  · unfold BoundedMotion.setPos
    rw [if_pos (by norm_num [motionSample])]
    rfl
  · norm_num [BoundedMotion.update, BoundedMotion.updateLoop, BoundedMotion.updateStep,
      BoundedMotion.stepOutcome,
      BoundedMotion.velAtTrajTime, BoundedMotion.posAtTrajTime, BoundedMotion.trajTimeAtStop,
      BoundedMotion.trajTimeAtDisp, BoundedMotion.reboundVel, BoundedMotion.setVel,
      motionSample, motionAfterBounce, sqrt_nine, abs_of_pos, abs_of_nonneg, abs_of_neg,
      abs_of_nonpos]
  · norm_num [BoundedMotion.update, BoundedMotion.updateLoop, BoundedMotion.updateStep,
      BoundedMotion.stepOutcome,
      BoundedMotion.velAtTrajTime, BoundedMotion.posAtTrajTime, BoundedMotion.trajTimeAtStop,
      BoundedMotion.trajTimeAtDisp, BoundedMotion.reboundVel, motionAfterBounce,
      abs_of_pos, abs_of_nonneg, abs_of_neg, abs_of_nonpos]

/- ---------------------------------------------------------------- -/
/- Claim C1: the position invariant of the bounded motion engine.     -/

namespace BoundedMotion

/-- The loop only exits with a position the boundary check has accepted. -/
theorem updateStep_inr_bounds (m : BoundedMotion) (trajTime p v : ℝ)
    (h : m.updateStep trajTime = .inr (p, v)) : 0 ≤ p ∧ p ≤ m.upperPos := by
  unfold updateStep stepOutcome at h
  dsimp only at h
  split at h <;> split at h
  all_goals
    first
    | exact Sum.noConfusion h
    | (rename_i hc
       push_neg at hc
       rw [Sum.inr.injEq, Prod.mk.injEq] at h
       exact ⟨h.1 ▸ hc.1, h.1 ▸ hc.2⟩)

/-- A rebound iteration preserves the configuration fields and puts the new
    trajectory origin at one of the two boundaries. -/
theorem updateStep_inl_preserves (m : BoundedMotion) (trajTime : ℝ)
    (m1 : BoundedMotion) (t1 : ℝ) (h : m.updateStep trajTime = .inl (m1, t1)) :
    m1.upperPos = m.upperPos ∧ m1.halfReboundVel = m.halfReboundVel ∧
      m1.accel = m.accel ∧ (m1.initPos = 0 ∨ m1.initPos = m.upperPos) := by
  unfold updateStep stepOutcome at h
  dsimp only at h
  split at h <;> split at h
  all_goals
    first
    | exact Sum.noConfusion h
    | (rw [Sum.inl.injEq, Prod.mk.injEq] at h
       rw [← h.1]
       refine ⟨rfl, rfl, rfl, ?_⟩
       dsimp only
       split
       · exact Or.inl rfl
       · exact Or.inr rfl)

/-- Whenever the update loop completes, the resulting position lies in
    `[0, upperPos]`, and the upper boundary is unchanged. -/
theorem updateLoop_some_bounds :
    ∀ (fuel : ℕ) (m : BoundedMotion) (t : ℝ) (b : ℕ) (r : BoundedMotion × ℕ),
      updateLoop fuel m t b = some r →
        (0 ≤ r.1.pos ∧ r.1.pos ≤ m.upperPos) ∧ r.1.upperPos = m.upperPos
  | 0, m, t, b, r => by simp [updateLoop]
  | fuel + 1, m, t, b, r => by
    intro h
    rw [updateLoop] at h
    rcases hstep : m.updateStep t with ⟨m1, t1⟩ | ⟨p, v⟩
    · rw [hstep] at h
      have hpre := updateStep_inl_preserves m t m1 t1 hstep
      have ih := updateLoop_some_bounds fuel m1 t1 (b + 1) r h
      rw [hpre.1] at ih
      exact ih
    · rw [hstep] at h
      have hb := updateStep_inr_bounds m t p v hstep
      have hr : ({ m with pos := p, vel := v }, b) = r := Option.some.inj h
      rw [← hr]
      exact ⟨hb, rfl⟩

/-- A successful `update` call is a completed run of the loop. -/
theorem update_ok_some (fuel : ℕ) (m : BoundedMotion) (globalTime : ℝ)
    (r : BoundedMotion × ℕ) (h : m.update fuel globalTime = .ok (some r)) :
    updateLoop fuel m (globalTime - m.trajStartGlobalTime) 0 = some r := by
  unfold update at h
  dsimp only at h
  split at h
  · exact Except.noConfusion h
  · exact Except.ok.inj h

end BoundedMotion

/-- The constructor check: a successful `make` records its parameters and
    certifies them positive. -/
theorem make_fields (u H a : ℝ) (m0 : BoundedMotion)
    (h : BoundedMotion.make u H a = some m0) :
    m0.upperPos = u ∧ m0.halfReboundVel = H ∧ m0.accel = a ∧
      0 < u ∧ 0 < H ∧ 0 < a := by
  unfold BoundedMotion.make at h
  split at h
  · rename_i hc
    rw [Option.some.injEq] at h
    rw [← h]
    exact ⟨rfl, rfl, rfl, hc.1, hc.2.1, hc.2.2⟩
  · exact Option.noConfusion h

/-- What an accepted `step` does on a state whose position sentinel is
    gone: it is a completed `BoundedMotion.update`. -/
theorem applyCtorOp_step_known (s : MotionCtor) (fuel : ℕ) (gt : ℝ)
    (s2 : MotionCtor) (hpk : s.posKnown = true)
    (h : applyCtorOp s (.step fuel gt) = some s2) :
    ∃ r, s.core.update fuel gt = .ok (some r) ∧ s2 = { s with core := r.1 } := by
  simp only [applyCtorOp, MotionCtor.update] at h
  rcases htk : s.timeKnown with _ | _
  · rw [htk] at h
    simp at h
  · rw [htk] at h
    rw [if_neg (by simp)] at h
    rw [if_neg (by rw [hpk]; simp)] at h
    rcases hcu : s.core.update fuel gt with e | o
    · rw [hcu] at h
      simp [Except.map] at h
    · rcases o with _ | r
      · rw [hcu] at h
        simp [Except.map] at h
      · rw [hcu] at h
        simp only [Except.map, Option.map] at h
        exact ⟨r, rfl, (Option.some.inj h).symm⟩

/-- What an accepted `setPos` does: the position sentinel is gone and the
    configuration is unchanged. -/
theorem applyCtorOp_position (s : MotionCtor) (p : ℝ) (s2 : MotionCtor)
    (h : applyCtorOp s (.position p) = some s2) :
    s2.posKnown = true ∧ s2.core.upperPos = s.core.upperPos := by
  simp only [applyCtorOp, MotionCtor.setPos] at h
  rcases hsp : s.core.setPos p with _ | m
  · rw [hsp] at h
    simp at h
  · rw [hsp] at h
    simp only [Option.map] at h
    rw [Option.some.injEq] at h
    rw [← h]
    refine ⟨rfl, ?_⟩
    unfold BoundedMotion.setPos at hsp
    split at hsp
    · rw [Option.some.injEq] at hsp
      rw [← hsp]
    · exact Option.noConfusion hsp

/-- After any accepted operation sequence that contains a `setPos` before
    its first `update` and ends with an `update`, the position sentinel is
    gone and the position lies in `[0, upperPos]`. -/
theorem runCtorOps_bounds_aux :
    ∀ (ops : List MotionOp) (s s1 : MotionCtor) (fuel : ℕ) (t : ℝ),
      (s.posKnown = true ∨ setPosFirst (ops ++ [.step fuel t]) = true) →
      runCtorOps s (ops ++ [.step fuel t]) = some s1 →
      s1.posKnown = true ∧ 0 ≤ s1.core.pos ∧ s1.core.pos ≤ s.core.upperPos
  | [], s, s1, fuel, t => by
    intro hfirst hrun
    have hpk : s.posKnown = true := by
      rcases hfirst with h | h
      · exact h
      · rw [List.nil_append] at h
        simp [setPosFirst] at h
    rw [List.nil_append, runCtorOps] at hrun
    rcases happ : applyCtorOp s (.step fuel t) with _ | s2
    · rw [happ] at hrun
      exact Option.noConfusion hrun
    · rw [happ, Option.some_bind, runCtorOps, Option.some.injEq] at hrun
      obtain ⟨r, hok, hs2⟩ := applyCtorOp_step_known s fuel t s2 hpk happ
      have hb := s.core.updateLoop_some_bounds fuel _ 0 r (s.core.update_ok_some fuel t r hok)
      rw [← hrun, hs2]
      exact ⟨hpk, hb.1⟩
  | op :: ops, s, s1, fuel, t => by
    intro hfirst hrun
    rw [List.cons_append, runCtorOps] at hrun
    rcases happ : applyCtorOp s op with _ | s2
    · rw [happ] at hrun
      exact Option.noConfusion hrun
    · rw [happ, Option.some_bind] at hrun
      rcases op with p | ⟨tv, v⟩ | ⟨fuel2, t2⟩
      · obtain ⟨hpk2, hupper⟩ := applyCtorOp_position s p s2 happ
        have ih := runCtorOps_bounds_aux ops s2 s1 fuel t (Or.inl hpk2) hrun
        rw [hupper] at ih
        exact ih
      · simp only [applyCtorOp] at happ
        rw [Option.some.injEq] at happ
        have hfirst2 : s2.posKnown = true ∨ setPosFirst (ops ++ [.step fuel t]) = true := by
          rcases hfirst with h | h
          · exact Or.inl (by rw [← happ]; exact h)
          · exact Or.inr h
        have ih := runCtorOps_bounds_aux ops s2 s1 fuel t hfirst2 hrun
        rw [show s2.core.upperPos = s.core.upperPos from by rw [← happ]; rfl] at ih
        exact ih
      · have hpk : s.posKnown = true := by
          rcases hfirst with h | h
          · exact h
          · simp [setPosFirst] at h
        obtain ⟨r, hok, hs2⟩ := applyCtorOp_step_known s fuel2 t2 s2 hpk happ
        have hb := s.core.updateLoop_some_bounds fuel2 _ 0 r
          (s.core.update_ok_some fuel2 t2 r hok)
        have ih := runCtorOps_bounds_aux ops s2 s1 fuel t
          (Or.inl (by rw [hs2]; exact hpk)) hrun
        rw [show s2.core.upperPos = s.core.upperPos from by rw [hs2]; exact hb.2] at ih
        exact ih

/-- Claim C1 (amended): for an engine constructed with valid parameters
    and any accepted sequence of `setPos`/`setVel`/`update` calls in which
    some `setPos` precedes the first `update` (so the constructor's NaN
    position sentinel has been overwritten), the position after every
    `update` call lies in `[0, upperPos]`. -/
theorem ctorRun_pos_in_bounds (u H a : ℝ) (s0 : MotionCtor)
    (hmk : MotionCtor.make u H a = some s0) (ops : List MotionOp)
    (fuel : ℕ) (t : ℝ) (s1 : MotionCtor)
    (hfirst : setPosFirst (ops ++ [.step fuel t]) = true)
    (hrun : runCtorOps s0 (ops ++ [.step fuel t]) = some s1) :
    0 ≤ s1.core.pos ∧ s1.core.pos ≤ u := by
  have hu : s0.core.upperPos = u := by
    unfold MotionCtor.make at hmk
    rcases hm : BoundedMotion.make u H a with _ | m
    · rw [hm] at hmk
      exact Option.noConfusion hmk
    · rw [hm] at hmk
      simp only [Option.map] at hmk
      rw [Option.some.injEq] at hmk
      rw [← hmk]
      exact (make_fields u H a m hm).1
  have h := runCtorOps_bounds_aux ops s0 s1 fuel t (Or.inr hfirst) hrun
  rw [hu] at h
  exact h.2

/-- The freshly constructed 4/1/2 engine: both sentinels in place. -/
def ctorSample : MotionCtor :=
  { core := motionSample, posKnown := false, timeKnown := false }

/-- The state the C1 counterexample run ends in: velocity decayed from 5
    to 3, position still the constructor's NaN sentinel. -/
def ctorAfterNaN : MotionCtor :=
  { core := { upperPos := 4, halfReboundVel := 1, accel := 2, trajStartGlobalTime := 0
              initPos := 0, pos := 0, initVel := 5, vel := 3 }
    posKnown := false, timeKnown := true }

/-- Claim C1 counterexample: the claimed sequences include runs with no
    `setPos` at all, such as `setVel(0, 5); update(1)` — which satisfies
    `update`'s precondition and completes — but the source then computes
    `pos = NaN + ... = NaN`, both boundary comparisons are false, and the
    call finishes with `pos = NaN`, which lies outside `[0, upperPos]`
    (here the run ends with `posKnown = false`: the position field still
    holds the constructor's NaN sentinel, not a number in `[0, 4]`). -/
theorem ctorRun_pos_nan_counterexample :
    MotionCtor.make 4 1 2 = some ctorSample ∧
      runCtorOps ctorSample [.velocity 0 5, .step 1 1] = some ctorAfterNaN ∧
      ctorAfterNaN.posKnown = false := by
  refine ⟨?_, ?_, rfl⟩
  · norm_num [MotionCtor.make, BoundedMotion.make, ctorSample, motionSample]
  · norm_num [runCtorOps, applyCtorOp, MotionCtor.setVel, MotionCtor.update,
      BoundedMotion.setVel, BoundedMotion.clampedVel, BoundedMotion.velAtTrajTime,
      ctorSample, ctorAfterNaN, motionSample]

/-- The state reached in the C1 witness run: `make 4 1 2`, `setPos 1`,
    `setVel 0 0`, `update 1` — both sentinels overwritten. -/
def ctorRested : MotionCtor :=
  { core := { upperPos := 4, halfReboundVel := 1, accel := 2, trajStartGlobalTime := 0
              initPos := 1, pos := 1, initVel := 0, vel := 0 }
    posKnown := true, timeKnown := true }

/-- Witness for claim C1 (amended): a concrete accepted run whose `setPos`
    precedes its update. -/
theorem ctorRun_pos_in_bounds_witness :
    0 ≤ ctorRested.core.pos ∧ ctorRested.core.pos ≤ 4 :=
  ctorRun_pos_in_bounds 4 1 2 ctorSample
    (by norm_num [MotionCtor.make, BoundedMotion.make, ctorSample, motionSample])
    [.position 1, .velocity 0 0] 1 1 ctorRested
    (by rfl)
    (by norm_num [runCtorOps, applyCtorOp, MotionCtor.setPos, MotionCtor.setVel,
      MotionCtor.update, Except.map,
      BoundedMotion.setPos, BoundedMotion.setVel,
      BoundedMotion.update, BoundedMotion.updateLoop, BoundedMotion.updateStep,
      BoundedMotion.stepOutcome,
      BoundedMotion.velAtTrajTime, BoundedMotion.posAtTrajTime,
      BoundedMotion.trajTimeAtStop, BoundedMotion.trajTimeAtDisp,
      BoundedMotion.reboundVel, ctorSample, ctorRested, motionSample])

/- ---------------------------------------------------------------- -/
/- Claims C6 and C7: the dodge controller.                            -/

namespace MovingButton

/-- Claim C6: while the immunity flag is set, a hit-detection pass over any
    pointer position (known or not, inside the padded box or not) and any
    velocities registers no hit and leaves everything but the hit flag —
    in particular both motion engines — unchanged. -/
theorem detectHit_immune (b : MovingButton) (posX posY : Option ℝ)
    (mouseVelX mouseVelY now ang : ℝ) (himm : b.hitImmune = true) :
    b.detectHit posX posY mouseVelX mouseVelY now ang = some { b with hit := false } := by
  unfold detectHit
  rcases posX with _ | px
  · rfl
  · rcases posY with _ | py
    · rfl
    · dsimp only
      have hfalse : ¬ (b.hitImmune = false ∧ 0 ≤ py - b.topPos + b.thickner ∧
          0 ≤ px - b.leftPos + b.thickner ∧ py - b.topPos + b.thickner ≤ b.hitHeight ∧
          px - b.leftPos + b.thickner ≤ b.hitWidth) := by
        intro hc
        rw [himm] at hc
        exact Bool.noConfusion hc.1
      rw [if_neg (fun hc => hfalse hc.2), decide_eq_false hfalse]

/-- A concrete controller state with the immunity flag set, for the C6
    witness.  The pointer position used there, `(2, 2)`, lies inside the
    padded hit box: in hit-box coordinates it is `(3, 3)` with box
    `[0, 10] × [0, 10]`. -/
def buttonSample : MovingButton :=
  { motionX := motionSample, motionY := motionSample, leftPos := 1, topPos := 1
    hitWidth := 10, hitHeight := 10, thickner := 2, hit := false, hitImmune := true }

/-- Witness for claim C6 at a pointer position inside the padded box. -/
theorem detectHit_immune_witness :
    buttonSample.detectHit (some 2) (some 2) 50 50 1000 0 =
      some { buttonSample with hit := false } :=
  detectHit_immune buttonSample (some 2) (some 2) 50 50 1000 0 rfl

/-- The direction vector produced by `_getUnitVecAwayFrom` is always a unit
    vector. -/
theorem getUnitVecAwayFrom_norm (px py ang : ℝ) :
    (getUnitVecAwayFrom px py ang).1 ^ 2 + (getUnitVecAwayFrom px py ang).2 ^ 2 = 1 := by
  unfold getUnitVecAwayFrom
  dsimp only
  split
  · simp [Real.cos_sq_add_sin_sq]
  · rename_i hmag
    push_neg at hmag
    have hne : Real.sqrt (px * px + py * py) ≠ 0 := ne_of_gt hmag
    have h2 : Real.sqrt (px * px + py * py) ^ 2 = px * px + py * py :=
      Real.sq_sqrt (add_nonneg (mul_self_nonneg px) (mul_self_nonneg py))
    field_simp
    rw [h2]
    ring

/-- What an accepted `_giveVel` does to the velocities and flags. -/
theorem giveVel_fields (b : MovingButton) (vx vy now : ℝ) (b1 : MovingButton)
    (h : b.giveVel vx vy now = some b1) :
    b1.motionX.vel = vx ∧ b1.motionY.vel = vy ∧ b1.hitImmune = b.hitImmune := by
  unfold giveVel at h
  rcases hx : b.motionX.setPos b.leftPos with _ | mx
  · rw [hx] at h
    exact Option.noConfusion h
  · rw [hx, Option.some_bind] at h
    rcases hy : b.motionY.setPos b.topPos with _ | my
    · rw [hy] at h
      exact Option.noConfusion h
    · rw [hy, Option.some_bind, Option.some.injEq] at h
      rw [← h]
      exact ⟨rfl, rfl, rfl⟩

/-- Claim C7: every accepted activation imparts a velocity of Euclidean
    magnitude exactly 4000, sets the immunity flag, and directs the
    velocity along the unit vector away from the activation point relative
    to the hit-box centre; when the activation point is exactly centred
    (which includes the non-pointer `(0,0)` client-coordinate case), the
    direction is the random unit vector `(-cos ang, -sin ang)` and the
    magnitude is still 4000. -/
theorem clicked_speed (b : MovingButton) (clientX clientY rectX rectY now ang : ℝ)
    (b1 : MovingButton) (h : b.clicked clientX clientY rectX rectY now ang = some b1) :
    Real.sqrt (b1.motionX.vel ^ 2 + b1.motionY.vel ^ 2) = 4000 ∧
      b1.hitImmune = true ∧
      (∀ px py : ℝ, b.activationPoint clientX clientY rectX rectY = (px, py) →
        ¬ (px = 0 ∧ py = 0) →
        b1.motionX.vel = 4000 * (-(px / Real.sqrt (px * px + py * py))) ∧
          b1.motionY.vel = 4000 * (-(py / Real.sqrt (px * px + py * py)))) ∧
      (b.activationPoint clientX clientY rectX rectY = (0, 0) →
        b1.motionX.vel = 4000 * (-Real.cos ang) ∧
          b1.motionY.vel = 4000 * (-Real.sin ang)) := by
  unfold clicked at h
  dsimp only at h
  have hg := giveVel_fields _ _ _ _ _ h
  set p := b.activationPoint clientX clientY rectX rectY with hp
  have hnorm := getUnitVecAwayFrom_norm p.1 p.2 ang
  refine ⟨?_, hg.2.2, ?_, ?_⟩
  · rw [hg.1, hg.2.1]
    rw [show (4000 * (getUnitVecAwayFrom p.1 p.2 ang).1) ^ 2 +
        (4000 * (getUnitVecAwayFrom p.1 p.2 ang).2) ^ 2 = 4000 ^ 2 by nlinarith [hnorm]]
    rw [Real.sqrt_sq (by norm_num)]
  · intro px py hpoint hne
    have hpos : 0 < Real.sqrt (px * px + py * py) := by
      apply Real.sqrt_pos.mpr
      rcases not_and_or.mp hne with h0 | h0
      · nlinarith [mul_self_pos.mpr h0, mul_self_nonneg py]
      · nlinarith [mul_self_pos.mpr h0, mul_self_nonneg px]
    have hvec : getUnitVecAwayFrom px py ang =
        (-(px / Real.sqrt (px * px + py * py)), -(py / Real.sqrt (px * px + py * py))) := by
      unfold getUnitVecAwayFrom
      rw [if_neg (not_not_intro hpos)]
    rw [hg.1, hg.2.1, hpoint]
    dsimp only
    rw [hvec]
    exact ⟨rfl, rfl⟩
  · intro hpoint
    have hvec : getUnitVecAwayFrom (0 : ℝ) (0 : ℝ) ang =
        (-Real.cos ang, -Real.sin ang) := by
      unfold getUnitVecAwayFrom
      rw [if_pos (by simp)]
    rw [hg.1, hg.2.1, hpoint]
    dsimp only
    rw [hvec]
    exact ⟨rfl, rfl⟩

end MovingButton

theorem sqrt_twentyfive : Real.sqrt 25 = 5 := by
  rw [show (25 : ℝ) = 5 ^ 2 by norm_num, Real.sqrt_sq (by norm_num)]

/-- The controller state after the witness activation: a click at client
    point `(6, 7)` (activation point `(3, 4)` relative to the hit-box
    centre) at time 1000 ms gives velocity `4000 * (-3/5, -4/5)`. -/
noncomputable def buttonClicked : MovingButton :=
  { motionX :=
      { upperPos := 4, halfReboundVel := 1, accel := 2, trajStartGlobalTime := 1
        initPos := 1, pos := 1, initVel := -2400, vel := -2400 }
    motionY :=
      { upperPos := 4, halfReboundVel := 1, accel := 2, trajStartGlobalTime := 1
        initPos := 1, pos := 1, initVel := -3200, vel := -3200 }
    leftPos := 1, topPos := 1, hitWidth := 10, hitHeight := 10, thickner := 2
    hit := false, hitImmune := true }

/-- Witness for claim C7 at a concrete off-centre activation. -/
theorem clicked_speed_witness :
    Real.sqrt (buttonClicked.motionX.vel ^ 2 + buttonClicked.motionY.vel ^ 2) = 4000 :=
  (MovingButton.clicked_speed MovingButton.buttonSample 6 7 0 0 1000 0 buttonClicked
    (by norm_num [MovingButton.clicked, MovingButton.activationPoint,
      MovingButton.getUnitVecAwayFrom, MovingButton.giveVel, BoundedMotion.setPos,
      BoundedMotion.setVel, MovingButton.buttonSample, buttonClicked, motionSample,
      sqrt_twentyfive])).1

/- ---------------------------------------------------------------- -/
/- Claims C9 and C3: termination of the bounce loop, and scenario B.  -/

/-- Exact-arithmetic facts about the lower root of the boundary-crossing
    quadratic used by `_trajTimeAtDisp`: with deceleration `a`, initial
    speed `u`, a displacement demand `disp ≥ 0` that the trajectory
    strictly exceeds by time `tEff` (which precedes the stopping time),
    the root is real, lands in `[0, tEff)`, leaves residual speed
    `√(u² - 2·a·disp)` and covers exactly `disp`. -/
theorem hit_root_facts (a u disp tEff : ℝ) (ha : 0 < a) (hd : 0 ≤ disp)
    (ht0 : 0 ≤ tEff) (hvt : a * tEff ≤ u)
    (hg : disp < u * tEff - a * tEff ^ 2 / 2) :
    0 < Real.sqrt (u * u - 2 * a * disp) ∧
      Real.sqrt (u * u - 2 * a * disp) ≤ u ∧
      0 ≤ (u - Real.sqrt (u * u - 2 * a * disp)) / a ∧
      (u - Real.sqrt (u * u - 2 * a * disp)) / a < tEff ∧
      u - a * ((u - Real.sqrt (u * u - 2 * a * disp)) / a) =
        Real.sqrt (u * u - 2 * a * disp) ∧
      u * ((u - Real.sqrt (u * u - 2 * a * disp)) / a) -
        a * ((u - Real.sqrt (u * u - 2 * a * disp)) / a) ^ 2 / 2 = disp := by
  set s := Real.sqrt (u * u - 2 * a * disp) with hsdef
  have hdisc : 0 < u * u - 2 * a * disp := by nlinarith [sq_nonneg (u - a * tEff)]
  have hs2 : s ^ 2 = u * u - 2 * a * disp := Real.sq_sqrt hdisc.le
  have hs0 : 0 < s := Real.sqrt_pos.mpr hdisc
  have hu : 0 < u := by nlinarith [mul_nonneg ha.le ht0, mul_nonneg ha.le hd]
  have hsu : s ≤ u := by nlinarith [hs2, hs0, hu, mul_nonneg ha.le hd]
  have hkey : u - a * tEff < s := by
    rcases le_or_lt (u - a * tEff) 0 with hc | hc
    · linarith
    · nlinarith [hs2, hs0, hc, hg, ha]
  have hroot0 : 0 ≤ (u - s) / a := div_nonneg (by linarith) ha.le
  have hrootlt : (u - s) / a < tEff := by
    rw [div_lt_iff₀ ha]
    linarith [hkey]
  have hvel : u - a * ((u - s) / a) = s := by
    field_simp
  have hdist : u * ((u - s) / a) - a * ((u - s) / a) ^ 2 / 2 = disp := by
    have h6 : u * ((u - s) / a) - a * ((u - s) / a) ^ 2 / 2 =
        (u * u - s ^ 2) / (2 * a) := by
      field_simp
      ring
    rw [h6, hs2]
    field_simp
  exact ⟨hs0, hsu, hroot0, hrootlt, hvel, hdist⟩

namespace BoundedMotion

/-- The constructor's parameter checks, as a predicate on the state. -/
def Valid (m : BoundedMotion) : Prop :=
  0 < m.upperPos ∧ 0 < m.halfReboundVel ∧ 0 < m.accel

/-- The trajectory origin lies between the boundaries (established by
    `setPos` and maintained by every rebound). -/
def InBounds (m : BoundedMotion) : Prop :=
  0 ≤ m.initPos ∧ m.initPos ≤ m.upperPos

/-- A state started by a rebound: origin on a boundary, velocity nonzero,
    pointing inward, with magnitude below the half-rebound reference
    speed. -/
def PostRebound (m : BoundedMotion) : Prop :=
  (m.initPos = 0 ∧ 0 < m.initVel ∧ m.initVel < m.halfReboundVel) ∨
  (m.initPos = m.upperPos ∧ -m.halfReboundVel < m.initVel ∧ m.initVel < 0)

/-- Outcome of the boundary stage for an upward (positive-velocity)
    trajectory segment evaluated at clamped time `tE ∈ [0, t]` before the
    stopping time: either the loop exits, or it rebounds off the upper
    boundary into a `PostRebound` state, with the covered distance bounded
    by initial speed times consumed time. -/
theorem stepOutcome_pos_spec (m : BoundedMotion) (t tE vel1 : ℝ)
    (hH : 0 < m.halfReboundVel) (ha : 0 < m.accel)
    (hb : InBounds m) (hv0 : 0 < m.initVel)
    (htE0 : 0 ≤ tE) (htEt : tE ≤ t) (hvelnn : m.accel * tE ≤ m.initVel)
    (hvel1 : vel1 = m.initVel - m.accel * tE) :
    (∃ p ve, m.stepOutcome tE vel1 = .inr (p, ve)) ∨
    (∃ m1 t1, m.stepOutcome tE vel1 = .inl (m1, t1) ∧ m1.upperPos = m.upperPos ∧
      m1.halfReboundVel = m.halfReboundVel ∧ m1.accel = m.accel ∧ PostRebound m1 ∧
      0 ≤ t1 ∧ t1 ≤ t ∧ m1.initPos = m.upperPos ∧
      m.upperPos - m.initPos ≤ m.initVel * (t - t1)) := by
  have hpos_eq : m.posAtTrajTime tE vel1 =
      m.initPos + m.initVel * tE - m.accel * tE ^ 2 / 2 := by
    rw [hvel1]
    unfold posAtTrajTime
    ring
  have hxle : m.initPos ≤ m.posAtTrajTime tE vel1 := by
    rw [hpos_eq]
    nlinarith [mul_nonneg (sub_nonneg.mpr hvelnn) htE0, mul_nonneg ha.le (mul_self_nonneg tE)]
  unfold stepOutcome
  dsimp only
  by_cases hbound : m.posAtTrajTime tE vel1 < 0 ∨ m.upperPos < m.posAtTrajTime tE vel1
  · right
    have hnotneg : ¬ m.posAtTrajTime tE vel1 < 0 := not_lt.mpr (le_trans hb.1 hxle)
    have hover : m.upperPos < m.posAtTrajTime tE vel1 := hbound.resolve_left hnotneg
    rw [if_pos hbound]
    simp only [if_neg hnotneg]
    have hg : m.upperPos - m.initPos < m.initVel * tE - m.accel * tE ^ 2 / 2 := by
      rw [hpos_eq] at hover
      linarith
    obtain ⟨hs0, hsu, hr0, hrlt, hrvel, hrdist⟩ :=
      hit_root_facts m.accel m.initVel (m.upperPos - m.initPos) tE ha
        (by linarith [hb.2]) htE0 hvelnn hg
    set s := Real.sqrt (m.initVel * m.initVel - 2 * m.accel * (m.upperPos - m.initPos))
      with hsdef
    have htd : m.trajTimeAtDisp (m.upperPos - m.initPos) = (m.initVel - s) / m.accel := by
      unfold trajTimeAtDisp
      rw [abs_of_pos hv0]
    simp only [htd]
    rw [if_pos ⟨hr0, hrlt.le⟩]
    have hhv : m.velAtTrajTime ((m.initVel - s) / m.accel) = s := by
      unfold velAtTrajTime
      rw [if_pos hv0.le]
      exact hrvel
    simp only [hhv]
    refine ⟨_, _, rfl, rfl, rfl, rfl, ?_, ?_, ?_, rfl, ?_⟩
    · refine Or.inr ⟨rfl, ?_, ?_⟩
      · exact (abs_lt.mp (m.abs_reboundVel_lt_half s hH)).1
      · exact m.reboundVel_neg_of_pos hH hs0
    · dsimp only
      linarith [hrlt]
    · dsimp only
      linarith [hr0, htEt]
    · dsimp only
      have h7 : (m.initVel - s) / m.accel ≤ t - (tE - (m.initVel - s) / m.accel) := by
        linarith
      nlinarith [hrdist, mul_nonneg ha.le (sq_nonneg ((m.initVel - s) / m.accel)),
        mul_le_mul_of_nonneg_left h7 hv0.le]
  · left
    rw [if_neg hbound]
    exact ⟨_, _, rfl⟩

end BoundedMotion

namespace BoundedMotion

/-- Outcome of the boundary stage for a downward (negative-velocity)
    trajectory segment: either the loop exits, or it rebounds off the
    lower boundary into a `PostRebound` state. -/
theorem stepOutcome_neg_spec (m : BoundedMotion) (t tE vel1 : ℝ)
    (hH : 0 < m.halfReboundVel) (ha : 0 < m.accel)
    (hb : InBounds m) (hv0 : m.initVel < 0)
    (htE0 : 0 ≤ tE) (htEt : tE ≤ t) (hvelnn : m.accel * tE ≤ -m.initVel)
    (hvel1 : vel1 = m.initVel + m.accel * tE) :
    (∃ p ve, m.stepOutcome tE vel1 = .inr (p, ve)) ∨
    (∃ m1 t1, m.stepOutcome tE vel1 = .inl (m1, t1) ∧ m1.upperPos = m.upperPos ∧
      m1.halfReboundVel = m.halfReboundVel ∧ m1.accel = m.accel ∧ PostRebound m1 ∧
      0 ≤ t1 ∧ t1 ≤ t ∧ m1.initPos = 0 ∧
      m.initPos ≤ (-m.initVel) * (t - t1)) := by
  have hpos_eq : m.posAtTrajTime tE vel1 =
      m.initPos + m.initVel * tE + m.accel * tE ^ 2 / 2 := by
    rw [hvel1]
    unfold posAtTrajTime
    ring
  have hxge : m.posAtTrajTime tE vel1 ≤ m.initPos := by
    rw [hpos_eq]
    nlinarith [mul_nonneg (sub_nonneg.mpr hvelnn) htE0, mul_nonneg ha.le (mul_self_nonneg tE)]
  unfold stepOutcome
  dsimp only
  by_cases hbound : m.posAtTrajTime tE vel1 < 0 ∨ m.upperPos < m.posAtTrajTime tE vel1
  · right
    have hnotover : ¬ m.upperPos < m.posAtTrajTime tE vel1 :=
      not_lt.mpr (le_trans hxge hb.2)
    have hunder : m.posAtTrajTime tE vel1 < 0 := hbound.resolve_right hnotover
    rw [if_pos hbound]
    simp only [if_pos hunder]
    have hg : m.initPos < (-m.initVel) * tE - m.accel * tE ^ 2 / 2 := by
      rw [hpos_eq] at hunder
      linarith
    obtain ⟨hs0, hsu, hr0, hrlt, hrvel, hrdist⟩ :=
      hit_root_facts m.accel (-m.initVel) m.initPos tE ha hb.1 htE0 hvelnn hg
    set s := Real.sqrt (-m.initVel * -m.initVel - 2 * m.accel * m.initPos) with hsdef
    have htd : m.trajTimeAtDisp m.initPos = (-m.initVel - s) / m.accel := by
      unfold trajTimeAtDisp
      rw [abs_of_neg hv0, show m.initVel * m.initVel = -m.initVel * -m.initVel from by ring]
    simp only [htd]
    rw [if_pos ⟨hr0, hrlt.le⟩]
    have hhv : m.velAtTrajTime ((-m.initVel - s) / m.accel) = -s := by
      unfold velAtTrajTime
      rw [if_neg (not_le.mpr hv0)]
      linarith [hrvel]
    simp only [hhv]
    refine ⟨_, _, rfl, rfl, rfl, rfl, ?_, ?_, ?_, rfl, ?_⟩
    · refine Or.inl ⟨rfl, ?_, ?_⟩
      · exact m.reboundVel_pos_of_neg hH (by linarith [hs0])
      · have := (abs_lt.mp (m.abs_reboundVel_lt_half (-s) hH)).2
        exact this
    · dsimp only
      linarith [hrlt]
    · dsimp only
      linarith [hr0, htEt]
    · dsimp only
      have h7 : (-m.initVel - s) / m.accel ≤ t - (tE - (-m.initVel - s) / m.accel) := by
        linarith
      nlinarith [hrdist, mul_nonneg ha.le (sq_nonneg ((-m.initVel - s) / m.accel)),
        mul_le_mul_of_nonneg_left h7 (by linarith : (0:ℝ) ≤ -m.initVel)]
  · left
    rw [if_neg hbound]
    exact ⟨_, _, rfl⟩

end BoundedMotion

namespace BoundedMotion

/-- Case analysis of one full loop iteration on a valid in-bounds state:
    either the loop exits, or it rebounds into a `PostRebound` state
    consuming a trajectory-time budget bounded below via the initial
    speed. -/
theorem updateStep_spec (m : BoundedMotion) (t : ℝ)
    (hH : 0 < m.halfReboundVel) (ha : 0 < m.accel)
    (hb : InBounds m) (ht : 0 ≤ t) :
    (∃ p ve, m.updateStep t = .inr (p, ve)) ∨
    (∃ m1 t1, m.updateStep t = .inl (m1, t1) ∧ m1.upperPos = m.upperPos ∧
      m1.halfReboundVel = m.halfReboundVel ∧ m1.accel = m.accel ∧ PostRebound m1 ∧
      0 ≤ t1 ∧ t1 ≤ t ∧
      (0 < m.initVel → m.upperPos - m.initPos ≤ m.initVel * (t - t1)) ∧
      (m.initVel < 0 → m.initPos ≤ -m.initVel * (t - t1))) := by
  rcases lt_trichotomy m.initVel 0 with hv0 | hv0 | hv0
  · -- downward segment
    have hvel : m.velAtTrajTime t = m.initVel + m.accel * t := by
      unfold velAtTrajTime
      rw [if_neg (not_le.mpr hv0)]
    have hstopt : m.trajTimeAtStop = -m.initVel / m.accel := by
      unfold trajTimeAtStop
      rw [abs_of_neg hv0]
    by_cases hstop : 0 < m.initVel + m.accel * t
    · have hstop' : (0 ≤ m.initVel ∧ m.velAtTrajTime t < 0) ∨
          (m.initVel < 0 ∧ 0 < m.velAtTrajTime t) := by
        refine Or.inr ⟨hv0, ?_⟩
        rw [hvel]
        exact hstop
      have heq : m.updateStep t = m.stepOutcome m.trajTimeAtStop 0 := by
        unfold updateStep
        dsimp only
        rw [if_pos hstop', if_pos hstop']
      have h1 : 0 ≤ m.trajTimeAtStop := by
        rw [hstopt]
        exact div_nonneg (by linarith) ha.le
      have h2 : m.trajTimeAtStop ≤ t := by
        rw [hstopt, div_le_iff₀ ha]
        nlinarith
      have h3 : m.accel * m.trajTimeAtStop ≤ -m.initVel := by
        rw [hstopt]
        rw [mul_div_cancel₀ _ (ne_of_gt ha)]
      have h4 : (0 : ℝ) = m.initVel + m.accel * m.trajTimeAtStop := by
        rw [hstopt, mul_div_cancel₀ _ (ne_of_gt ha)]
        ring
      rcases m.stepOutcome_neg_spec t m.trajTimeAtStop 0 hH ha hb hv0 h1 h2 h3 h4 with
        ⟨p, ve, hpe⟩ | ⟨m1, t1, hpe, hrest⟩
      · exact Or.inl ⟨p, ve, by rw [heq, hpe]⟩
      · refine Or.inr ⟨m1, t1, by rw [heq, hpe], hrest.1, hrest.2.1, hrest.2.2.1,
          hrest.2.2.2.1, hrest.2.2.2.2.1, hrest.2.2.2.2.2.1, ?_, ?_⟩
        · intro hgt
          exact absurd hgt (not_lt.mpr hv0.le)
        · intro _
          exact hrest.2.2.2.2.2.2.2
    · have hstop' : ¬ ((0 ≤ m.initVel ∧ m.velAtTrajTime t < 0) ∨
          (m.initVel < 0 ∧ 0 < m.velAtTrajTime t)) := by
        rintro (⟨hge, _⟩ | ⟨_, hlt⟩)
        · exact absurd hge (not_le.mpr hv0)
        · rw [hvel] at hlt
          exact hstop hlt
      have heq : m.updateStep t = m.stepOutcome t (m.velAtTrajTime t) := by
        unfold updateStep
        dsimp only
        rw [if_neg hstop', if_neg hstop']
      have h3 : m.accel * t ≤ -m.initVel := by
        push_neg at hstop
        linarith
      rcases m.stepOutcome_neg_spec t t (m.velAtTrajTime t) hH ha hb hv0 ht le_rfl h3 hvel
        with ⟨p, ve, hpe⟩ | ⟨m1, t1, hpe, hrest⟩
      · exact Or.inl ⟨p, ve, by rw [heq, hpe]⟩
      · refine Or.inr ⟨m1, t1, by rw [heq, hpe], hrest.1, hrest.2.1, hrest.2.2.1,
          hrest.2.2.2.1, hrest.2.2.2.2.1, hrest.2.2.2.2.2.1, ?_, ?_⟩
        · intro hgt
          exact absurd hgt (not_lt.mpr hv0.le)
        · intro _
          exact hrest.2.2.2.2.2.2.2
  · -- resting segment: the clamp reduces everything to the origin
    refine Or.inl ?_
    have hvel : m.velAtTrajTime t = -(m.accel * t) := by
      unfold velAtTrajTime
      rw [if_pos (le_of_eq hv0.symm), hv0]
      ring
    by_cases hstop : (0 ≤ m.initVel ∧ m.velAtTrajTime t < 0) ∨
        (m.initVel < 0 ∧ 0 < m.velAtTrajTime t)
    · have heq : m.updateStep t = m.stepOutcome m.trajTimeAtStop 0 := by
        unfold updateStep
        dsimp only
        rw [if_pos hstop, if_pos hstop]
      have hpp : m.posAtTrajTime m.trajTimeAtStop 0 = m.initPos := by
        unfold posAtTrajTime trajTimeAtStop
        rw [hv0]
        norm_num
      have hfin : m.stepOutcome m.trajTimeAtStop 0 =
          .inr (m.posAtTrajTime m.trajTimeAtStop 0, 0) := by
        unfold stepOutcome
        dsimp only
        rw [if_neg (by rw [hpp]; exact not_or.mpr ⟨not_lt.mpr hb.1, not_lt.mpr hb.2⟩)]
      exact ⟨_, _, by rw [heq, hfin]⟩
    · have heq : m.updateStep t = m.stepOutcome t (m.velAtTrajTime t) := by
        unfold updateStep
        dsimp only
        rw [if_neg hstop, if_neg hstop]
      have ht0 : t = 0 := by
        push_neg at hstop
        have h5 := hstop.1 (le_of_eq hv0.symm)
        rw [hvel] at h5
        nlinarith
      have hpp : m.posAtTrajTime t (m.velAtTrajTime t) = m.initPos := by
        rw [ht0]
        unfold posAtTrajTime
        ring
      have hfin : m.stepOutcome t (m.velAtTrajTime t) =
          .inr (m.posAtTrajTime t (m.velAtTrajTime t), m.velAtTrajTime t) := by
        unfold stepOutcome
        dsimp only
        rw [if_neg (by rw [hpp]; exact not_or.mpr ⟨not_lt.mpr hb.1, not_lt.mpr hb.2⟩)]
      exact ⟨_, _, by rw [heq, hfin]⟩
  · -- upward segment
    have hvel : m.velAtTrajTime t = m.initVel - m.accel * t := by
      unfold velAtTrajTime
      rw [if_pos hv0.le]
    have hstopt : m.trajTimeAtStop = m.initVel / m.accel := by
      unfold trajTimeAtStop
      rw [abs_of_pos hv0]
    by_cases hstop : m.initVel - m.accel * t < 0
    · have hstop' : (0 ≤ m.initVel ∧ m.velAtTrajTime t < 0) ∨
          (m.initVel < 0 ∧ 0 < m.velAtTrajTime t) := by
        refine Or.inl ⟨hv0.le, ?_⟩
        rw [hvel]
        exact hstop
      have heq : m.updateStep t = m.stepOutcome m.trajTimeAtStop 0 := by
        unfold updateStep
        dsimp only
        rw [if_pos hstop', if_pos hstop']
      have h1 : 0 ≤ m.trajTimeAtStop := by
        rw [hstopt]
        exact div_nonneg hv0.le ha.le
      have h2 : m.trajTimeAtStop ≤ t := by
        rw [hstopt, div_le_iff₀ ha]
        nlinarith
      have h3 : m.accel * m.trajTimeAtStop ≤ m.initVel := by
        rw [hstopt]
        rw [mul_div_cancel₀ _ (ne_of_gt ha)]
      have h4 : (0 : ℝ) = m.initVel - m.accel * m.trajTimeAtStop := by
        rw [hstopt, mul_div_cancel₀ _ (ne_of_gt ha)]
        ring
      rcases m.stepOutcome_pos_spec t m.trajTimeAtStop 0 hH ha hb hv0 h1 h2 h3 h4 with
        ⟨p, ve, hpe⟩ | ⟨m1, t1, hpe, hrest⟩
      · exact Or.inl ⟨p, ve, by rw [heq, hpe]⟩
      · refine Or.inr ⟨m1, t1, by rw [heq, hpe], hrest.1, hrest.2.1, hrest.2.2.1,
          hrest.2.2.2.1, hrest.2.2.2.2.1, hrest.2.2.2.2.2.1, ?_, ?_⟩
        · intro _
          exact hrest.2.2.2.2.2.2.2
        · intro hlt
          exact absurd hlt (not_lt.mpr hv0.le)
    · have hstop' : ¬ ((0 ≤ m.initVel ∧ m.velAtTrajTime t < 0) ∨
          (m.initVel < 0 ∧ 0 < m.velAtTrajTime t)) := by
        rintro (⟨_, hlt⟩ | ⟨hlt, _⟩)
        · rw [hvel] at hlt
          exact hstop hlt
        · exact absurd hlt (not_lt.mpr hv0.le)
      have heq : m.updateStep t = m.stepOutcome t (m.velAtTrajTime t) := by
        unfold updateStep
        dsimp only
        rw [if_neg hstop', if_neg hstop']
      have h3 : m.accel * t ≤ m.initVel := by
        push_neg at hstop
        linarith
      rcases m.stepOutcome_pos_spec t t (m.velAtTrajTime t) hH ha hb hv0 ht le_rfl h3 hvel
        with ⟨p, ve, hpe⟩ | ⟨m1, t1, hpe, hrest⟩
      · exact Or.inl ⟨p, ve, by rw [heq, hpe]⟩
      · refine Or.inr ⟨m1, t1, by rw [heq, hpe], hrest.1, hrest.2.1, hrest.2.2.1,
          hrest.2.2.2.1, hrest.2.2.2.2.1, hrest.2.2.2.2.2.1, ?_, ?_⟩
        · intro _
          exact hrest.2.2.2.2.2.2.2
        · intro hlt
          exact absurd hlt (not_lt.mpr hv0.le)

end BoundedMotion

namespace BoundedMotion

/-- From a `PostRebound` state, a rebound iteration consumes a
    trajectory-time slice longer than `upperPos / halfReboundVel`: the
    particle must traverse the full width at a speed below
    `halfReboundVel` (claim C10's bound). -/
theorem postRebound_step_gap (m : BoundedMotion) (t t1 : ℝ)
    (hup : 0 < m.upperPos) (hpr : PostRebound m)
    (hbound1 : 0 < m.initVel → m.upperPos - m.initPos ≤ m.initVel * (t - t1))
    (hbound2 : m.initVel < 0 → m.initPos ≤ -m.initVel * (t - t1)) :
    m.upperPos < m.halfReboundVel * (t - t1) := by
  rcases hpr with ⟨h0, hv0, hvH⟩ | ⟨h0, hvH, hv0⟩
  · have h1 := hbound1 hv0
    rw [h0, sub_zero] at h1
    have h2 : 0 < t - t1 := by
      rcases lt_or_le 0 (t - t1) with h | h
      · exact h
      · nlinarith
    nlinarith
  · have h1 := hbound2 hv0
    rw [h0] at h1
    have h2 : 0 < t - t1 := by
      rcases lt_or_le 0 (t - t1) with h | h
      · exact h
      · nlinarith
    nlinarith

/-- A `PostRebound` origin lies in bounds. -/
theorem postRebound_inBounds (m : BoundedMotion) (hup : 0 < m.upperPos)
    (hpr : PostRebound m) : InBounds m := by
  rcases hpr with ⟨h0, _⟩ | ⟨h0, _⟩
  · exact ⟨h0.ge, by rw [h0]; exact hup.le⟩
  · exact ⟨by rw [h0]; exact hup.le, h0.le⟩

/-- From a `PostRebound` state with trajectory-time budget at most
    `n * upperPos / halfReboundVel`, the loop completes within `n + 1`
    iterations: every further rebound requires a full wall-to-wall
    traversal, which takes longer than `upperPos / halfReboundVel`. -/
theorem updateLoop_postRebound_terminates :
    ∀ (n : ℕ) (m : BoundedMotion) (t : ℝ) (b : ℕ),
      0 < m.upperPos → 0 < m.halfReboundVel → 0 < m.accel →
      PostRebound m → 0 ≤ t → t * m.halfReboundVel ≤ n * m.upperPos →
      ∃ r, updateLoop (n + 1) m t b = some r := by
  intro n
  induction n with
  | zero =>
    intro m t b hup hH ha hpr ht hbudget
    rcases m.updateStep_spec t hH ha (m.postRebound_inBounds hup hpr) ht with
      ⟨p, ve, hstep⟩ |
      ⟨m1, t1, hstep, hu1, hh1, ha1, hpr1, ht10, ht1t, hbound1, hbound2⟩
    · exact ⟨_, by rw [updateLoop, hstep]⟩
    · exfalso
      have hkey := m.postRebound_step_gap t t1 hup hpr hbound1 hbound2
      have ht0 : t = 0 := by
        have h5 : t * m.halfReboundVel ≤ 0 := by simpa using hbudget
        nlinarith
      rw [ht0] at hkey
      nlinarith
  | succ n ih =>
    intro m t b hup hH ha hpr ht hbudget
    rcases m.updateStep_spec t hH ha (m.postRebound_inBounds hup hpr) ht with
      ⟨p, ve, hstep⟩ |
      ⟨m1, t1, hstep, hu1, hh1, ha1, hpr1, ht10, ht1t, hbound1, hbound2⟩
    · exact ⟨_, by rw [updateLoop, hstep]⟩
    · have hkey := m.postRebound_step_gap t t1 hup hpr hbound1 hbound2
      have hbudget1 : t1 * m1.halfReboundVel ≤ n * m1.upperPos := by
        rw [hu1, hh1]
        push_cast at hbudget ⊢
        nlinarith
      obtain ⟨r, hr⟩ := ih m1 t1 (b + 1)
        (by rw [hu1]; exact hup) (by rw [hh1]; exact hH) (by rw [ha1]; exact ha)
        hpr1 ht10 hbudget1
      exact ⟨r, by rw [updateLoop, hstep]; exact hr⟩

/-- The bounce loop of `update` always terminates on a valid in-bounds
    state, for every nonnegative trajectory time. -/
theorem updateLoop_terminates (m : BoundedMotion) (t : ℝ)
    (hup : 0 < m.upperPos) (hH : 0 < m.halfReboundVel) (ha : 0 < m.accel)
    (hb : InBounds m) (ht : 0 ≤ t) (b : ℕ) :
    ∃ fuel r, updateLoop fuel m t b = some r := by
  rcases m.updateStep_spec t hH ha hb ht with ⟨p, ve, hstep⟩ |
    ⟨m1, t1, hstep, hu1, hh1, ha1, hpr1, ht10, ht1t, _, _⟩
  · exact ⟨0 + 1, _, by rw [updateLoop, hstep]⟩
  · set n := Nat.ceil (t1 * m.halfReboundVel / m.upperPos) with hn
    have hbudget : t1 * m.halfReboundVel ≤ n * m.upperPos := by
      have h1 : t1 * m.halfReboundVel / m.upperPos ≤ (n : ℝ) := Nat.le_ceil _
      rw [div_le_iff₀ hup] at h1
      linarith
    obtain ⟨r, hr⟩ := updateLoop_postRebound_terminates n m1 t1 (b + 1)
      (by rw [hu1]; exact hup) (by rw [hh1]; exact hH) (by rw [ha1]; exact ha)
      hpr1 ht10 (by rw [hu1, hh1]; exact hbudget)
    exact ⟨(n + 1) + 1, r, by rw [updateLoop, hstep]; exact hr⟩

end BoundedMotion

/-- `update` always completes on a valid in-bounds state whose time
    satisfies the precondition (helper shared by the termination claim and
    the scenario analysis). -/
theorem update_completes (m : BoundedMotion) (globalTime : ℝ)
    (hup : 0 < m.upperPos) (hH : 0 < m.halfReboundVel) (ha : 0 < m.accel)
    (hb : 0 ≤ m.initPos ∧ m.initPos ≤ m.upperPos)
    (ht : m.trajStartGlobalTime ≤ globalTime) :
    ∃ fuel r, m.update fuel globalTime = .ok (some r) := by
  obtain ⟨fuel, r, hr⟩ := m.updateLoop_terminates (globalTime - m.trajStartGlobalTime)
    hup hH ha hb (by linarith) 0
  refine ⟨fuel, r, ?_⟩
  unfold BoundedMotion.update
  rw [if_neg (not_not_intro (by linarith : (0:ℝ) ≤ globalTime - m.trajStartGlobalTime))]
  rw [hr]

/-- Claim C9: every `update` call on a validly configured engine whose
    trajectory origin is in bounds and whose time satisfies the
    precondition terminates: the bounce loop needs only finitely many
    iterations (a fuel bound exists for which it completes). -/
theorem update_terminates (m : BoundedMotion) (globalTime : ℝ)
    (hup : 0 < m.upperPos) (hH : 0 < m.halfReboundVel) (ha : 0 < m.accel)
    (hb : 0 ≤ m.initPos ∧ m.initPos ≤ m.upperPos)
    (ht : m.trajStartGlobalTime ≤ globalTime) :
    ∃ fuel r, m.update fuel globalTime = .ok (some r) :=
  update_completes m globalTime hup hH ha hb ht

/-- Witness for claim C9 at the concrete engine `motionSample` (which has
    velocity 0 and position 0) and time 1. -/
theorem update_terminates_witness :
    ∃ fuel r, motionSample.update fuel 1 = .ok (some r) :=
  update_terminates motionSample 1 (by norm_num [motionSample])
    (by norm_num [motionSample]) (by norm_num [motionSample])
    (by norm_num [motionSample]) (by norm_num [motionSample])

namespace BoundedMotion

/-- The loop's rebound counter never decreases. -/
theorem updateLoop_count_ge :
    ∀ (fuel : ℕ) (m : BoundedMotion) (t : ℝ) (b : ℕ) (r : BoundedMotion × ℕ),
      updateLoop fuel m t b = some r → b ≤ r.2
  | 0, m, t, b, r => by
    intro h
    rw [updateLoop] at h
    exact Option.noConfusion h
  | fuel + 1, m, t, b, r => by
    intro h
    rw [updateLoop] at h
    rcases hstep : m.updateStep t with ⟨m1, t1⟩ | ⟨p, v⟩
    · rw [hstep] at h
      exact le_trans (Nat.le_succ b) (updateLoop_count_ge fuel m1 t1 (b + 1) r h)
    · rw [hstep] at h
      exact le_of_eq (congrArg Prod.snd (Option.some.inj h))

theorem updateLoop_zero (m : BoundedMotion) (t : ℝ) (b : ℕ) :
    updateLoop 0 m t b = none := by
  rw [updateLoop]

/-- Unfolding one rebound iteration of the loop. -/
theorem updateLoop_inl_shift (fuel : ℕ) (m : BoundedMotion) (t : ℝ) (b : ℕ)
    (m1 : BoundedMotion) (t1 : ℝ) (h1 : m.updateStep t = .inl (m1, t1)) :
    updateLoop (fuel + 1) m t b = updateLoop fuel m1 t1 (b + 1) := by
  rw [updateLoop, h1]

/-- If the first two iterations both rebound, any completed run counts at
    least two rebounds. -/
theorem updateLoop_two_rebounds (fuel : ℕ) (m : BoundedMotion) (t : ℝ) (b : ℕ)
    (m1 : BoundedMotion) (t1 : ℝ) (m2 : BoundedMotion) (t2 : ℝ)
    (r : BoundedMotion × ℕ)
    (h1 : m.updateStep t = .inl (m1, t1)) (h2 : m1.updateStep t1 = .inl (m2, t2))
    (h : updateLoop fuel m t b = some r) : b + 2 ≤ r.2 := by
  rcases fuel with _ | fuel
  · rw [updateLoop_zero] at h
    exact Option.noConfusion h
  · rw [updateLoop_inl_shift fuel m t b m1 t1 h1] at h
    rcases fuel with _ | fuel
    · rw [updateLoop_zero] at h
      exact Option.noConfusion h
    · rw [updateLoop_inl_shift fuel m1 t1 (b + 1) m2 t2 h2] at h
      exact updateLoop_count_ge fuel m2 t2 (b + 2) r h

end BoundedMotion

/-- The engine state of the spec's Scenario B after `setPos 50` and
    `setVel 0 2000` on a `upperPos = 100`, `halfReboundVel = 1000`,
    `accel = 25` engine. -/
noncomputable def scenarioB : BoundedMotion :=
  { upperPos := 100, halfReboundVel := 1000, accel := 25, trajStartGlobalTime := 0
    initPos := 50, pos := 50, initVel := 2000, vel := 2000 }

/-- Scenario B's state after the first rebound, which happens at global
    time `(2000 - √3997500)/25 ≈ 0.025`. -/
noncomputable def scenarioB1 : BoundedMotion :=
  { upperPos := 100, halfReboundVel := 1000, accel := 25
    trajStartGlobalTime := 0 + (2000 - Real.sqrt 3997500) / 25
    initPos := 100, pos := 50
    initVel := scenarioB.reboundVel (Real.sqrt 3997500), vel := 2000 }

theorem sqrt_scenB_lt : Real.sqrt 3997500 < 2000 :=
  (Real.sqrt_lt' (by norm_num)).mpr (by norm_num)

theorem lt_sqrt_scenB : (1999 : ℝ) < Real.sqrt 3997500 :=
  (Real.lt_sqrt (by norm_num)).mpr (by norm_num)

/-- Scenario B's first loop iteration: the particle would overshoot to
    `2037.5`, so it rebounds off the upper boundary at trajectory time
    `(2000 - √3997500)/25 < 1`, with incoming speed `√3997500` and
    post-rebound state `scenarioB1`. -/
theorem scenarioB_step1 :
    scenarioB.updateStep 1 =
      .inl (scenarioB1, 1 - (2000 - Real.sqrt 3997500) / 25) := by
  have hlt := sqrt_scenB_lt
  have hgt := lt_sqrt_scenB
  have hvel : scenarioB.velAtTrajTime 1 = 1975 := by
    norm_num [scenarioB, BoundedMotion.velAtTrajTime]
  have heq0 : scenarioB.updateStep 1 = scenarioB.stepOutcome 1 1975 := by
    unfold BoundedMotion.updateStep
    dsimp only
    rw [hvel]
    rw [if_neg (by norm_num [scenarioB]), if_neg (by norm_num [scenarioB])]
  rw [heq0]
  unfold BoundedMotion.stepOutcome
  dsimp only
  have hpos : scenarioB.posAtTrajTime 1 1975 = 4075 / 2 := by
    norm_num [scenarioB, BoundedMotion.posAtTrajTime]
  simp only [hpos]
  rw [if_pos (by norm_num [scenarioB])]
  simp only [if_neg (by norm_num : ¬ (4075 / 2 : ℝ) < 0)]
  have hdisp : scenarioB.upperPos - scenarioB.initPos = (50 : ℝ) := by
    norm_num [scenarioB]
  rw [hdisp]
  have htd : scenarioB.trajTimeAtDisp 50 = (2000 - Real.sqrt 3997500) / 25 := by
    unfold BoundedMotion.trajTimeAtDisp
    norm_num [scenarioB]
  rw [htd]
  rw [if_pos ⟨by nlinarith, by nlinarith⟩]
  have hhv : scenarioB.velAtTrajTime ((2000 - Real.sqrt 3997500) / 25) =
      Real.sqrt 3997500 := by
    unfold BoundedMotion.velAtTrajTime
    rw [if_pos (by norm_num [scenarioB])]
    norm_num [scenarioB]
    ring
  rw [hhv]
  unfold scenarioB1 scenarioB
  norm_num

/-- The rebound speed in Scenario B lies below 666 px/s in magnitude
    bound form: the rebound velocity is below `-666`. -/
theorem scenarioB_rebound_lt : scenarioB.reboundVel (Real.sqrt 3997500) < -666 := by
  have hgt := lt_sqrt_scenB
  have hs0 : (0 : ℝ) < Real.sqrt 3997500 := by linarith
  unfold BoundedMotion.reboundVel
  have hd : (0 : ℝ) < Real.sqrt 3997500 / (1000 : ℝ) + 1 := by positivity
  rw [abs_of_pos hs0, show scenarioB.halfReboundVel = (1000 : ℝ) from rfl,
    div_lt_iff₀ hd]
  linarith

/-- Scenario B's second loop iteration also rebounds: the post-rebound
    speed (≈ 666) times the remaining ≈ 0.975 s would carry the particle
    far past the lower boundary. -/
theorem scenarioB_step2 :
    ∃ m2 t2, scenarioB1.updateStep (1 - (2000 - Real.sqrt 3997500) / 25) =
      .inl (m2, t2) := by
  have hgt := lt_sqrt_scenB
  have hlt := sqrt_scenB_lt
  have hr1 := scenarioB_rebound_lt
  have hnn : ¬ (0 : ℝ) ≤ scenarioB.reboundVel (Real.sqrt 3997500) := by linarith
  unfold BoundedMotion.updateStep BoundedMotion.stepOutcome BoundedMotion.velAtTrajTime
    BoundedMotion.posAtTrajTime
  dsimp only
  simp only [scenarioB1]
  rw [if_neg hnn]
  have hstop' : ¬ ((0 ≤ scenarioB.reboundVel (Real.sqrt 3997500) ∧
      scenarioB.reboundVel (Real.sqrt 3997500) +
        25 * (1 - (2000 - Real.sqrt 3997500) / 25) < 0) ∨
    (scenarioB.reboundVel (Real.sqrt 3997500) < 0 ∧
      0 < scenarioB.reboundVel (Real.sqrt 3997500) +
        25 * (1 - (2000 - Real.sqrt 3997500) / 25))) := by
    rintro (⟨hge, _⟩ | ⟨_, hpos2⟩)
    · exact hnn hge
    · nlinarith
  simp only [if_neg hstop']
  split
  · exact ⟨_, _, rfl⟩
  · rename_i hC
    exfalso
    obtain ⟨h1, h2⟩ := not_or.mp hC
    apply h1
    nlinarith [mul_pos
      (show (0 : ℝ) < -666 - scenarioB.reboundVel (Real.sqrt 3997500) by linarith)
      (show (0 : ℝ) < (1 - (2000 - Real.sqrt 3997500) / 25) - 24 / 25 by nlinarith),
      mul_pos
      (show (0 : ℝ) < 1 - (1 - (2000 - Real.sqrt 3997500) / 25) by nlinarith)
      (show (0 : ℝ) < 1 - (2000 - Real.sqrt 3997500) / 25 by nlinarith)]

/-- Claim C3 counterexample: in Scenario B (`upper=100, H=1000, accel=25`,
    `setPos 50; setVel 0 2000; update 1`) the update completes, but every
    completed run performs at least two rebounds — not exactly one. -/
theorem scenarioB_not_one_rebound :
    ∃ (fuel : ℕ) (r : BoundedMotion × ℕ),
      scenarioB.update fuel 1 = .ok (some r) ∧ 2 ≤ r.2 ∧ r.2 ≠ 1 := by
  obtain ⟨fuel, r, hr⟩ := update_completes scenarioB 1
    (by norm_num [scenarioB]) (by norm_num [scenarioB]) (by norm_num [scenarioB])
    (by norm_num [scenarioB]) (by norm_num [scenarioB])
  have hloop := scenarioB.update_ok_some fuel 1 r hr
  rw [show (1 : ℝ) - scenarioB.trajStartGlobalTime = 1 by norm_num [scenarioB]] at hloop
  obtain ⟨m2, t2, hstep2⟩ := scenarioB_step2
  have h2 := scenarioB.updateLoop_two_rebounds fuel 1 0 scenarioB1
    (1 - (2000 - Real.sqrt 3997500) / 25) m2 t2 r scenarioB_step1 hstep2 hloop
  refine ⟨fuel, r, hr, by omega, by omega⟩

/-- Claim C3 (amended): in Scenario B the particle reaches the upper
    boundary `100` before `t = 1`, at hit time `(2000 - √3997500)/25`; the
    first rebound matches the analytic solution of the first quadratic
    segment (position snapped to `100`, trajectory origin moved to the hit
    time, velocity `reboundVel(√3997500)`, which is a sign change); but
    the update performs at least two rebounds in total, so the final state
    is not the two-segment analytic solution. -/
theorem scenarioB_amended :
    ((BoundedMotion.make 100 1000 25).bind (fun m0 => m0.setPos 50)).map
        (fun m0 => m0.setVel 0 2000) = some scenarioB ∧
      0 < (2000 - Real.sqrt 3997500) / 25 ∧
      (2000 - Real.sqrt 3997500) / 25 < 1 ∧
      scenarioB.updateStep 1 =
        .inl (scenarioB1, 1 - (2000 - Real.sqrt 3997500) / 25) ∧
      scenarioB1.initPos = 100 ∧
      scenarioB1.trajStartGlobalTime = (2000 - Real.sqrt 3997500) / 25 ∧
      scenarioB1.initVel = scenarioB.reboundVel (Real.sqrt 3997500) ∧
      scenarioB1.initVel < 0 ∧
      (∃ (fuel : ℕ) (r : BoundedMotion × ℕ),
        scenarioB.update fuel 1 = .ok (some r) ∧ 2 ≤ r.2) := by
  have hgt := lt_sqrt_scenB
  have hlt := sqrt_scenB_lt
  refine ⟨?_, by linarith, by nlinarith, scenarioB_step1, rfl,
    by norm_num [scenarioB1], rfl, ?_, ?_⟩
  · norm_num [BoundedMotion.make, BoundedMotion.setPos, BoundedMotion.setVel, scenarioB]
  · have := scenarioB_rebound_lt
    show scenarioB.reboundVel (Real.sqrt 3997500) < 0
    linarith
  · obtain ⟨fuel, r, hr⟩ := update_completes scenarioB 1
      (by norm_num [scenarioB]) (by norm_num [scenarioB]) (by norm_num [scenarioB])
      (by norm_num [scenarioB]) (by norm_num [scenarioB])
    have hloop := scenarioB.update_ok_some fuel 1 r hr
    rw [show (1 : ℝ) - scenarioB.trajStartGlobalTime = 1 by norm_num [scenarioB]] at hloop
    obtain ⟨m2, t2, hstep2⟩ := scenarioB_step2
    have h2 := scenarioB.updateLoop_two_rebounds fuel 1 0 scenarioB1
      (1 - (2000 - Real.sqrt 3997500) / 25) m2 t2 r scenarioB_step1 hstep2 hloop
    exact ⟨fuel, r, hr, by omega⟩
